import Mathlib

/-!
Shallow embedding of the astroalign-js core (the asterism-matching and
robust-transform-estimation pipeline) and verification of its
natural-language specification.

Conventions of the embedding:
* JavaScript numbers are modelled as exact rationals (`ℚ`) wherever the
  source computes with coordinates, squared distances and their ratios,
  and as real numbers (`ℝ`) at the points where the source applies
  `Math.sqrt`.  Bridging lemmas relate the two views.
* The external dependencies (the `static-kdtree` spatial index and the
  `nudged` least-squares similarity estimator) are black boxes for the
  source; the spatial index is modelled from the spec, and the estimator
  is an abstract structure parameter.
* Randomness (the Fisher-Yates shuffle inside `ransac`) is injected as an
  explicit list-of-indices parameter, following the spec's instruction to
  treat the RNG as an injectable source.
* Fallible operations return `Except AstroError`.
-/

namespace Astroalign

/-- A 2D point, as the source's `[x, y]` coordinate pairs. -/
abbrev Pt : Type := ℚ × ℚ

/-- Squared Euclidean distance, as computed inline by `invariantFeatures`
and `arrangeTriplet` (`(x1[0] - x2[0]) ** 2 + (x1[1] - x2[1]) ** 2`). -/
def dist2 (p q : Pt) : ℚ :=
  (p.1 - q.1) ^ 2 + (p.2 - q.2) ^ 2

/-- Ascending sort of three values, the result of the source's
`sides.sort((a, b) => a - b)` on a three-element array.  Ties keep the
original order (JavaScript's `Array.prototype.sort` is stable), which for
a sort of plain values only matters for which *equal* value is returned
where, so any tie branch below returns the same triple of values. -/
def sort3 {α : Type} [LinearOrder α] (a b c : α) : α × α × α :=
  if a ≤ b then
    if b ≤ c then (a, b, c)
    else if a ≤ c then (a, c, b)
    else (c, a, b)
  else
    if a ≤ c then (b, a, c)
    else if b ≤ c then (b, c, a)
    else (c, b, a)

/-- The permutation of the three slots `0, 1, 2` produced by the stable
ascending sort of three keyed entries, as in `arrangeTriplet`'s
`sideLengths.map((length, index) => ({length, index})).sort((a, b) =>
a.length - b.length).map((item) => item.index)`.  Stability of the
JavaScript sort is encoded in the tie branches: on equal keys the
earlier slot stays first (every `≤` below is non-strict exactly where the
earlier slot is compared to a later one). -/
def slots3 {α : Type} [LinearOrder α] (a b c : α) : ℕ × ℕ × ℕ :=
  if a ≤ b then
    if b ≤ c then (0, 1, 2)
    else if a ≤ c then (0, 2, 1)
    else (2, 0, 1)
  else
    if a ≤ c then (1, 0, 2)
    else if b ≤ c then (1, 2, 0)
    else (2, 1, 0)

/-- The squared invariant features: the source's `invariantFeatures`
returns `[Math.sqrt(sides[2] / sides[1]), Math.sqrt(sides[1] / sides[0])]`
where `sides` are the ascending-sorted squared distances; this definition
carries the two ratios *before* the square roots (see
`invariantFeatures`, the faithful real-valued form, and
`invariantFeatures_eq_sqrt`, the bridge). -/
def invariantFeaturesSq (x1 x2 x3 : Pt) : ℚ × ℚ :=
  let s := sort3 (dist2 x1 x2) (dist2 x2 x3) (dist2 x1 x3)
  (s.2.2 / s.2.1, s.2.1 / s.1)

/-- The invariant features of three points, exactly as the source's
`invariantFeatures`: sort the three pairwise squared distances ascending
and return `(√(sides[2]/sides[1]), √(sides[1]/sides[0]))`. -/
noncomputable def invariantFeatures (x1 x2 x3 : Pt) : ℝ × ℝ :=
  let s := sort3 (dist2 x1 x2) (dist2 x2 x3) (dist2 x1 x3)
  (Real.sqrt ((s.2.2 / s.2.1 : ℚ) : ℝ), Real.sqrt ((s.2.1 / s.1 : ℚ) : ℝ))

theorem invariantFeatures_eq_sqrt (x1 x2 x3 : Pt) :
    invariantFeatures x1 x2 x3 =
      (Real.sqrt ((invariantFeaturesSq x1 x2 x3).1 : ℝ),
       Real.sqrt ((invariantFeaturesSq x1 x2 x3).2 : ℝ)) := rfl

/-- First-maximum fold over candidate keys: keeps the current best unless a
strictly larger count appears, so among equal counts the earliest key wins.
This is the behaviour of the source's stable
`Object.entries(count).sort((a, b) => b[1] - a[1])` followed by taking the
first entry. -/
def argmaxCount (l : List ℕ) : List ℕ → ℕ → ℕ
  | [], best => best
  | k :: ks, best => argmaxCount l ks (if l.count best < l.count k then k else best)

/-- The vertex index returned by `arrangeTriplet`'s `mostCommon` helper
followed by `parseInt`: JavaScript object integer-like keys enumerate in
ascending numeric order, the stable sort by descending count moves the
maximal-count key first (earliest, i.e. smallest, key on count ties), and
`parseInt` of the stringified entry array reads that first key. -/
def mostCommonVertex (l : List ℕ) : ℕ :=
  match List.insertionSort (· ≤ ·) l.dedup with
  | [] => 0
  | k :: ks => argmaxCount l ks k

/-- The source's `arrangeTriplet`: order the triangle's vertex indices as
`(a, b, c)` where `a` joins sides `L1` and `L2`, `b` joins `L2` and `L3`,
`c` joins `L3` and `L1`, with `L1 ≤ L2 ≤ L3` the sorted side lengths.
The source sorts the real side lengths `Math.sqrt(dᵢ)`; this embedding
sorts the squared lengths `dᵢ`, which produces the identical slot
permutation because `Real.sqrt` is strictly monotone and injective on
nonnegative values — `slots3_sqrt` below proves exactly this. -/
def arrangeTriplet (sources : List Pt) (v : ℕ × ℕ × ℕ) : ℕ × ℕ × ℕ :=
  let x1 := sources.getD v.1 (0, 0)
  let x2 := sources.getD v.2.1 (0, 0)
  let x3 := sources.getD v.2.2 (0, 0)
  let side : ℕ → ℕ × ℕ := fun n =>
    if n = 0 then (v.1, v.2.1) else if n = 1 then (v.2.1, v.2.2) else (v.2.2, v.1)
  let sl := slots3 (dist2 x1 x2) (dist2 x2 x3) (dist2 x3 x1)
  (mostCommonVertex [(side sl.1).1, (side sl.1).2, (side sl.2.1).1, (side sl.2.1).2],
   mostCommonVertex [(side sl.2.1).1, (side sl.2.1).2, (side sl.2.2).1, (side sl.2.2).2],
   mostCommonVertex [(side sl.2.2).1, (side sl.2.2).2, (side sl.1).1, (side sl.1).2])

/-- Sorting the real side lengths (as the source does) and sorting the
squared side lengths produce the same slot permutation: `Real.sqrt` is
monotone and injective on nonnegative inputs, so every comparison made by
the stable sort has the same outcome. -/
theorem slots3_sqrt (a b c : ℚ) (_ha : 0 ≤ a) (hb : 0 ≤ b) (hc : 0 ≤ c) :
    slots3 (Real.sqrt (a : ℝ)) (Real.sqrt (b : ℝ)) (Real.sqrt (c : ℝ)) =
      slots3 a b c := by
  have hab : Real.sqrt (a : ℝ) ≤ Real.sqrt (b : ℝ) ↔ a ≤ b := by
    rw [Real.sqrt_le_sqrt_iff (by exact_mod_cast hb)]; exact_mod_cast Iff.rfl
  have hbc : Real.sqrt (b : ℝ) ≤ Real.sqrt (c : ℝ) ↔ b ≤ c := by
    rw [Real.sqrt_le_sqrt_iff (by exact_mod_cast hc)]; exact_mod_cast Iff.rfl
  have hac : Real.sqrt (a : ℝ) ≤ Real.sqrt (c : ℝ) ↔ a ≤ c := by
    rw [Real.sqrt_le_sqrt_iff (by exact_mod_cast hc)]; exact_mod_cast Iff.rfl
  simp only [slots3, hab, hbc, hac]

/-- The number of nearest neighbours each anchor point queries
(`NUM_NEAREST_NEIGHBORS = 5`). -/
def NUM_NEAREST_NEIGHBORS : ℕ := 5

/-- The consensus fraction used to compute `minMatches`
(`MIN_MATCHES_FRACTION = 0.8`). -/
def MIN_MATCHES_FRACTION : ℚ := 8 / 10

/-- The RANSAC residual tolerance in pixels (`PIXEL_TOL = 2`). -/
noncomputable def PIXEL_TOL : ℝ := 2

/-- Modelled from the spec: the external `static-kdtree` k-nearest-neighbour
query (`coordTree.knn(asrc, knn)`), absent from the repository's sources.
Per the spec's external-interface contract it returns the `k` nearest
element indices ordered closest first; the spec leaves the order of
equidistant elements unspecified, resolved here by ascending index. -/
def knnQuery (points : List Pt) (q : Pt) (k : ℕ) : List ℕ :=
  ((List.range points.length).map (fun i => (dist2 (points.getD i (0, 0)) q, i))
      |> List.insertionSort
           (fun a b => a.1 < b.1 ∨ (a.1 = b.1 ∧ a.2 ≤ b.2))).map (·.2)
    |>.take k

/-- All increasing-position pairs of a list's elements, helper for
`triples`. -/
def pairsOf : List ℕ → List (ℕ × ℕ)
  | [] => []
  | x :: xs => xs.map (fun y => (x, y)) ++ pairsOf xs

/-- All 3-element combinations of the neighbour index list, in the order of
the source's nested `for (i) for (j = i+1) for (k = j+1)` loops over
`indx`. -/
def triples : List ℕ → List (ℕ × ℕ × ℕ)
  | [] => []
  | x :: xs => (pairsOf xs).map (fun p => (x, p.1, p.2)) ++ triples xs

/-- The canonically arranged candidate triangles produced by
`generateInvariants` before deduplication: for every anchor point, all
3-element combinations of its `min(|sources|, NUM_NEAREST_NEIGHBORS)`
nearest neighbours, each canonicalized by `arrangeTriplet`. -/
def anchorTriangles (sources : List Pt) : List (ℕ × ℕ × ℕ) :=
  sources.flatMap (fun asrc =>
    (triples (knnQuery sources asrc (min sources.length NUM_NEAREST_NEIGHBORS))).map
      (fun v => arrangeTriplet sources v))

/-- The descriptor list aligned with `anchorTriangles`, before
deduplication (the source's `inv` array); descriptors are carried in
squared form, see `invariantFeaturesSq`. -/
def allDescriptors (sources : List Pt) : List (ℚ × ℚ) :=
  (anchorTriangles sources).map (fun t =>
    invariantFeaturesSq (sources.getD t.1 (0, 0)) (sources.getD t.2.1 (0, 0))
      (sources.getD t.2.2 (0, 0)))

/-- The positions the source's duplicate-removal scan keeps: position `pos`
survives exactly when no *later* entry is equal to it
(`!inv.slice(pos + 1).some(item => item[0] === elem[0] && item[1] === elem[1])`).
JavaScript `===` on the descriptor components corresponds to exact `ℚ`
equality here: the descriptors are `Math.sqrt` of the squared ratios, and
`Real.sqrt` is injective on nonnegative values (`invariantFeatures_inj`). -/
def uniqIndices {α : Type} [DecidableEq α] : List α → List ℕ
  | [] => []
  | x :: xs => (if x ∈ xs then [] else [0]) ++ (uniqIndices xs).map (· + 1)

/-- The source's `generateInvariants`: per-anchor triangle generation,
descriptor computation, and duplicate removal keeping the later of any
two equal descriptors.  Returns the (deduplicated) descriptor list and
the aligned canonical triangle list. -/
def generateInvariants (sources : List Pt) : List (ℚ × ℚ) × List (ℕ × ℕ × ℕ) :=
  let inv := allDescriptors sources
  let u := uniqIndices inv
  (u.map (fun i => inv.getD i (0, 0)), u.map (fun i => (anchorTriangles sources).getD i (0, 0, 0)))

/-- Decides `t ≤ 2·(√u + √v)` for rationals `u, v ≥ 0` by squaring twice;
`sqrtSumGe_iff` proves it equivalent to the real inequality. -/
def sqrtSumGe (u v t : ℚ) : Bool :=
  if t ≤ 0 then true
  else
    let w := t ^ 2 - 4 * (u + v)
    if w ≤ 0 then true else decide (w ^ 2 ≤ 64 * (u * v))

/-- The radius test of the cross-matching step: the source queries the
target invariant tree with `rnn(sourceInv, 0.1, ...)`, visiting every
target descriptor within Euclidean distance `0.1` of the source
descriptor in invariant space.  Descriptors here are squared
(`invariantFeaturesSq`), so the test is
`(√a₁ − √b₁)² + (√a₂ − √b₂)² ≤ 0.1²`, decided exactly over `ℚ`;
`matched_iff` proves the equivalence with the real-distance condition. -/
def matched (a b : ℚ × ℚ) : Bool :=
  sqrtSumGe (a.1 * b.1) (a.2 * b.2) (a.1 + b.1 + a.2 + b.2 - 1 / 100)

/-- The target-descriptor indices within match radius of one source
descriptor (the source's `matchesList[sourceInd]`); the kd-tree callback
visit order is unspecified by the spec and modelled as ascending index. -/
def matchesFor (tgtInv : List (ℚ × ℚ)) (inv : ℚ × ℚ) : List ℕ :=
  (List.range tgtInv.length).filter (fun j => matched inv (tgtInv.getD j (0, 0)))

/-- One candidate correspondence: the three vertex-position-aligned
`(sourceIndex, targetIndex)` pairs of a source triangle and a target
triangle (`t1.map((sIdx, j) => [sIdx, t2[j]])`). -/
def pairUp (t1 t2 : ℕ × ℕ × ℕ) : List (ℕ × ℕ) :=
  [(t1.1, t2.1), (t1.2.1, t2.2.1), (t1.2.2, t2.2.2)]

/-- The flattened candidate-correspondence list built by `findTransform`
from the two invariant sets (the source's `matches` array). -/
def candidateMatches (srcInv : List (ℚ × ℚ)) (srcAst : List (ℕ × ℕ × ℕ))
    (tgtInv : List (ℚ × ℚ)) (tgtAst : List (ℕ × ℕ × ℕ)) : List (List (ℕ × ℕ)) :=
  (List.range srcAst.length).flatMap (fun i =>
    (matchesFor tgtInv (srcInv.getD i (0, 0))).map (fun j =>
      pairUp (srcAst.getD i (0, 0, 0)) (tgtAst.getD j (0, 0, 0))))

/-- The candidate-correspondence list of the full pipeline for two control
point sets, as computed inside `findTransform`. -/
def pipelineMatches (srcCP tgtCP : List Pt) : List (List (ℕ × ℕ)) :=
  candidateMatches (generateInvariants srcCP).1 (generateInvariants srcCP).2
    (generateInvariants tgtCP).1 (generateInvariants tgtCP).2

/-- The error kinds of the pipeline (spec section 7): input-type error,
insufficient control points in either input, and RANSAC exhaustion. -/
inductive AstroError : Type
  | inputType : AstroError
  | insufficientSource : AstroError
  | insufficientTarget : AstroError
  | matchExhaustion : AstroError
deriving DecidableEq

/-- A data-point model as consumed by `ransac`: something that can be
fitted to a list of data points and report per-point errors, exactly the
interface of the source's `MatchTransform` (`fit`, `getError`).  `M` is
the data-point type, `T` the fitted-transform type, `E` the error-value
type (real numbers in the source; kept abstract so concrete witnesses can
compute). -/
structure RModel (M T E : Type) where
  fit : List M → T
  getError : List M → T → List E

/-- The maximum of a list with a default for the empty list, as
`Math.max(...r)` over the (always 3-element) residual list. -/
def maxD {α : Type} [LinearOrder α] (d : α) : List α → α
  | [] => d
  | x :: xs => xs.foldl max x

/-- The external `nudged` least-squares similarity estimator, a black box
for the source (spec section 6): fits a transform to two aligned point
lists and evaluates the residual distance of one transformed source point
against its claimed target point. -/
structure Estimator (T E : Type) where
  fit : List Pt → List Pt → T
  residual : T → Pt → Pt → E

/-- The source's `MatchTransform` for given control point sets, wrapping
the external estimator: `fit` flattens the triangle correspondences to
point pairs and fits; `getError` returns, per triangle correspondence,
the maximum of its three vertex residuals. -/
def matchModel {T E : Type} [LinearOrder E] [Inhabited E] (est : Estimator T E)
    (source target : List Pt) : RModel (List (ℕ × ℕ)) T E where
  fit data :=
    est.fit ((data.flatten).map (fun p => source.getD p.1 (0, 0)))
      ((data.flatten).map (fun p => target.getD p.2 (0, 0)))
  getError data t :=
    data.map (fun triangle =>
      maxD default (triangle.map (fun p =>
        est.residual t (source.getD p.1 (0, 0)) (target.getD p.2 (0, 0)))))

/-- The single-candidate minimal sample at shuffled position `i`
(`allIdxs.slice(iterI, iterI + 1)`). -/
def sampleIdxs (order : List ℕ) (i : ℕ) : List ℕ :=
  (order.drop i).take 1

/-- All shuffled indices except position `i`
(`allIdxs.slice(0, iterI) ++ allIdxs.slice(iterI + 1)`). -/
def restIdxs (order : List ℕ) (i : ℕ) : List ℕ :=
  order.take i ++ order.drop (i + 1)

/-- The hypothesis transform fitted from the single sample at position `i`
(`model.fit(maybeInliers)`). -/
def hypFit {M T E : Type} [Inhabited M] (model : RModel M T E) (data : List M)
    (order : List ℕ) (i : ℕ) : T :=
  model.fit ((sampleIdxs order i).map (fun j => data.getD j default))

/-- The supporting inliers of the hypothesis at position `i`: the *other*
candidates whose error under the hypothesis is strictly below the
threshold (`testIdxs.filter((_, i) => testErr[i] < thresh)`). -/
def supportIdxs {M T E : Type} [Inhabited M] [LinearOrder E] (model : RModel M T E)
    (data : List M) (thresh : E) (order : List ℕ) (i : ℕ) : List ℕ :=
  let test := restIdxs order i
  let errs := model.getError (test.map (fun j => data.getD j default)) (hypFit model data order i)
  ((test.zip errs).filter (fun p => p.2 < thresh)).map (·.1)

/-- The accepted refit at position `i`: the transform refitted from the
union of the sample and its supporters
(`model.fit([...maybeInliers, ...alsoInliers])`). -/
def acceptFit {M T E : Type} [Inhabited M] [LinearOrder E] (model : RModel M T E)
    (data : List M) (thresh : E) (order : List ℕ) (i : ℕ) : T :=
  model.fit (((sampleIdxs order i) ++ supportIdxs model data thresh order i).map
    (fun j => data.getD j default))

/-- The RANSAC hypothesis search: iterate over the shuffled positions, and
at the first position whose supporter count reaches `minMatches`, return
the refit from sample plus supporters and stop (the loop's `break`);
return `none` when the positions are exhausted. -/
def searchPositions {M T E : Type} [Inhabited M] [LinearOrder E] (model : RModel M T E)
    (data : List M) (thresh : E) (minMatches : ℕ) (order : List ℕ) : List ℕ → Option T
  | [] => none
  | i :: rest =>
    if minMatches ≤ (supportIdxs model data thresh order i).length then
      some (acceptFit model data thresh order i)
    else searchPositions model data thresh minMatches order rest

/-- One refinement iteration: recompute every candidate's error under the
current transform, collect all below the threshold as the inlier set, and
refit from that set. -/
def refineStep {M T E : Type} [Inhabited M] [LinearOrder E] (model : RModel M T E)
    (data : List M) (thresh : E) (t : T) : T × List ℕ :=
  let errs := model.getError data t
  let inl := (((List.range data.length).zip errs).filter (fun p => p.2 < thresh)).map (·.1)
  (model.fit (inl.map (fun j => data.getD j default)), inl)

/-- The fixed three-iteration consensus tightening (`for (let i = 0; i < 3; ...)`). -/
def refine3 {M T E : Type} [Inhabited M] [LinearOrder E] (model : RModel M T E)
    (data : List M) (thresh : E) (t0 : T) : T × List ℕ :=
  refineStep model data thresh
    (refineStep model data thresh (refineStep model data thresh t0).1).1

/-- The source's `ransac`.  The source shuffles `allIdxs` in place with
`Math.random` (Fisher-Yates); following the spec's injectable-randomness
design note, the shuffled order is an explicit parameter `order`.  The
search runs over the first `data.length` shuffled positions; if no
hypothesis is accepted the exhaustion error is raised, otherwise the
accepted fit is refined three times and the final transform and final
inlier index set are returned. -/
def ransac {M T E : Type} [Inhabited M] [LinearOrder E] (data : List M)
    (model : RModel M T E) (thresh : E) (minMatches : ℕ) (order : List ℕ) :
    Except AstroError (T × List ℕ) :=
  match searchPositions model data thresh minMatches order (List.range data.length) with
  | none => .error .matchExhaustion
  | some goodFit => .ok (refine3 model data thresh goodFit)

/-- Duplicate removal keeping the first occurrence, as the source's
`Object.fromEntries(triangleInliers.map(m => [JSON.stringify(m), m]))`
followed by `Object.values`: string keys enumerate in first-insertion
order and re-assignment of an identical pair does not move or change the
entry. -/
def dedupKeepFirst {α : Type} [DecidableEq α] (l : List α) : List α :=
  l.foldl (fun acc x => if x ∈ acc then acc else acc ++ [x]) []

/-- One step of the source's `inlDict` accumulation: insert the pair if its
source index is absent, or replace the stored pair in place when the new
pair's residual error is strictly smaller. -/
def dictInsert {E : Type} [LinearOrder E] (err : ℕ → ℕ → E)
    (acc : List (ℕ × ℕ × E)) (p : ℕ × ℕ) : List (ℕ × ℕ × E) :=
  match acc.find? (fun e => e.1 = p.1) with
  | none => acc ++ [(p.1, p.2, err p.1 p.2)]
  | some entry =>
    if err p.1 p.2 < entry.2.2 then
      acc.map (fun e => if e.1 = p.1 then (p.1, p.2, err p.1 p.2) else e)
    else acc

/-- The correspondence resolver of `findTransform`: deduplicate identical
pairs, keep per source index the pair with the lowest single-point
residual error (strict improvement, so the first of equal-error pairs
wins), and emit the surviving `(source, target)` pairs.  The final
`Object.entries(inlDict)` enumerates the integer-like keys in ascending
numeric order, modelled by the stable ascending sort on the source
index. -/
def resolveInliers {E : Type} [LinearOrder E] (err : ℕ → ℕ → E)
    (pairs : List (ℕ × ℕ)) : List (ℕ × ℕ) :=
  let uniq := dedupKeepFirst pairs
  let dict := uniq.foldl (dictInsert err) []
  (List.insertionSort (fun a b => a.1 ≤ b.1) dict).map (fun e => (e.1, e.2.1))

/-- The `minMatches` computation of `findTransform`:
`Math.max(1, Math.min(10, Math.floor(nInvariants * MIN_MATCHES_FRACTION)))`. -/
def minMatchesFor (nInvariants : ℕ) : ℕ :=
  max 1 (min 10 (Int.toNat ⌊(nInvariants : ℚ) * MIN_MATCHES_FRACTION⌋))

/-- The result of the direct-fit shortcut branch of `findTransform`: fit
the transform on the full (single-entry) candidate list, declare every
candidate inlying, and run the correspondence resolver on the flattened
pairs. -/
noncomputable def directFitResult {T : Type} (est : Estimator T ℝ)
    (srcCP tgtCP : List Pt) : T × (List Pt × List Pt) :=
  let cand := pipelineMatches srcCP tgtCP
  let model := matchModel est srcCP tgtCP
  let bestT := model.fit cand
  let inlierInd := List.range cand.length
  let triangleInliers := (inlierInd.map (fun i => cand.getD i [])).flatten
  let errFn := fun s t => est.residual bestT (srcCP.getD s (0, 0)) (tgtCP.getD t (0, 0))
  let pairsOut := resolveInliers errFn triangleInliers
  (bestT, (pairsOut.map (fun p => srcCP.getD p.1 (0, 0)),
           pairsOut.map (fun p => tgtCP.getD p.2 (0, 0))))

/-- The source's `findTransform` on coordinate-list inputs.  An empty input
falls into the raw-image branch, whose detector is absent, and surfaces
as the input-type error; a nonempty coordinate list is truncated to the
first `maxControlPoints` entries before the fewer-than-3 check.  The
shuffled candidate order consumed by `ransac` is the injected `order`
parameter; `est` is the external similarity estimator. -/
noncomputable def findTransform {T : Type} (est : Estimator T ℝ) (order : List ℕ)
    (source target : List Pt) (maxControlPoints : ℕ) :
    Except AstroError (T × (List Pt × List Pt)) :=
  if source.isEmpty then .error .inputType
  else if target.isEmpty then .error .inputType
  else
    let srcCP := source.take maxControlPoints
    let tgtCP := target.take maxControlPoints
    if srcCP.length < 3 then .error .insufficientSource
    else if tgtCP.length < 3 then .error .insufficientTarget
    else
      let cand := pipelineMatches srcCP tgtCP
      let model := matchModel est srcCP tgtCP
      let minMatches := minMatchesFor cand.length
      let fitRes : Except AstroError (T × List ℕ) :=
        if (srcCP.length = 3 ∨ tgtCP.length = 3) ∧ cand.length = 1 then
          .ok (model.fit cand, List.range cand.length)
        else ransac cand model PIXEL_TOL minMatches order
      match fitRes with
      | .error e => .error e
      | .ok (bestT, inlierInd) =>
        let triangleInliers := (inlierInd.map (fun i => cand.getD i [])).flatten
        let errFn := fun s t => est.residual bestT (srcCP.getD s (0, 0)) (tgtCP.getD t (0, 0))
        let pairsOut := resolveInliers errFn triangleInliers
        .ok (bestT, (pairsOut.map (fun p => srcCP.getD p.1 (0, 0)),
                     pairsOut.map (fun p => tgtCP.getD p.2 (0, 0))))

/-- An IEEE-754-style value of a JavaScript `number` as produced by the
descriptor arithmetic: a finite real, a signed infinity, or NaN. -/
inductive JSNum : Type
  | real : ℝ → JSNum
  | posInf : JSNum
  | negInf : JSNum
  | nan : JSNum

/-- JavaScript division of two finite numbers: finite quotient for a
nonzero divisor, signed infinity for `±x / 0` with `x ≠ 0`, and NaN for
`0 / 0`. -/
noncomputable def jsDiv (a b : ℚ) : JSNum :=
  if b ≠ 0 then .real ((a / b : ℚ) : ℝ)
  else if 0 < a then .posInf
  else if a < 0 then .negInf
  else .nan

/-- JavaScript `Math.sqrt`: NaN for negative or NaN input, infinity for
infinite input. -/
noncomputable def jsSqrt : JSNum → JSNum
  | .real x => if x < 0 then .nan else .real (Real.sqrt x)
  | .posInf => .posInf
  | .negInf => .nan
  | .nan => .nan

/-- The source's `invariantFeatures` under JavaScript floating-point
semantics for the two divisions and square roots (the coordinates and
squared distances themselves are exact). -/
noncomputable def invariantFeaturesJS (x1 x2 x3 : Pt) : JSNum × JSNum :=
  let s := sort3 (dist2 x1 x2) (dist2 x2 x3) (dist2 x1 x3)
  (jsSqrt (jsDiv s.2.2 s.2.1), jsSqrt (jsDiv s.2.1 s.1))

theorem dist2_comm (p q : Pt) : dist2 p q = dist2 q p := by
  unfold dist2; ring

theorem argmaxCount_eq (l : List ℕ) (x : ℕ) :
    ∀ (ks : List ℕ) (best : ℕ), (x = best ∨ x ∈ ks) →
      (∀ y, (y = best ∨ y ∈ ks) → y ≠ x → l.count y < l.count x) →
      argmaxCount l ks best = x
  | [], best, hmem, _ => by
    rcases hmem with h | h
    · simpa [argmaxCount] using h.symm
    · simp at h
  | k :: ks, best, hmem, hmax => by
    simp only [argmaxCount]
    by_cases hlt : l.count best < l.count k
    · simp only [if_pos hlt]
      apply argmaxCount_eq l x ks k
      · rcases hmem with h | h
        · by_cases hkx : k = x
          · exact Or.inl hkx.symm
          · have hk := hmax k (Or.inr (List.mem_cons_self _ _)) hkx
            rw [← h] at hlt
            omega
        · rcases List.mem_cons.1 h with h' | h'
          · exact Or.inl h'
          · exact Or.inr h'
      · intro y hy hne
        rcases hy with h | h
        · exact hmax y (Or.inr (h ▸ List.mem_cons_self _ _)) hne
        · exact hmax y (Or.inr (List.mem_cons_of_mem _ h)) hne
    · simp only [if_neg hlt]
      apply argmaxCount_eq l x ks best
      · rcases hmem with h | h
        · exact Or.inl h
        · rcases List.mem_cons.1 h with h' | h'
          · by_cases hbx : best = x
            · exact Or.inl hbx.symm
            · have hb := hmax best (Or.inl rfl) hbx
              rw [h'] at hb
              exact absurd hb hlt
          · exact Or.inr h'
      · intro y hy hne
        rcases hy with h | h
        · exact hmax y (Or.inl h) hne
        · exact hmax y (Or.inr (List.mem_cons_of_mem _ h)) hne

theorem mostCommonVertex_eq (l : List ℕ) (x : ℕ) (hx : x ∈ l)
    (hmax : ∀ y ∈ l, y ≠ x → l.count y < l.count x) :
    mostCommonVertex l = x := by
  unfold mostCommonVertex
  generalize hkeys : List.insertionSort (· ≤ ·) l.dedup = keys
  have hmem : ∀ y, y ∈ keys ↔ y ∈ l := by
    intro y
    rw [← hkeys, (List.perm_insertionSort _ _).mem_iff, List.mem_dedup]
  cases keys with
  | nil => exact absurd ((hmem x).2 hx) (by simp)
  | cons k ks =>
    apply argmaxCount_eq l x ks k
    · rcases List.mem_cons.1 ((hmem x).2 hx) with h | h
      · exact Or.inl h
      · exact Or.inr h
    · intro y hy hne
      have hyl : y ∈ l := by
        rcases hy with h | h
        · exact (hmem y).1 (h ▸ List.mem_cons_self _ _)
        · exact (hmem y).1 (List.mem_cons_of_mem _ h)
      exact hmax y hyl hne

theorem mcv_shape1 (p q r : ℕ) (hpq : p ≠ q) (hqr : q ≠ r) (hpr : p ≠ r) :
    mostCommonVertex [p, q, q, r] = q := by
  apply mostCommonVertex_eq
  · simp
  · intro y hy hne
    have hcq : List.count q [p, q, q, r] = 2 := by
      simp [List.count_cons, hpq, hqr, Ne.symm hpq]
    rcases show y = p ∨ y = q ∨ y = r by simpa using hy with h | h | h
    · rw [h]
      have : List.count p [p, q, q, r] = 1 := by
        simp [List.count_cons, hpq, hpr]
      omega
    · exact absurd h hne
    · rw [h]
      have : List.count r [p, q, q, r] = 1 := by
        simp [List.count_cons, Ne.symm hqr, Ne.symm hpr]
      omega

theorem mcv_shape2 (p q r : ℕ) (hpq : p ≠ q) (hqr : q ≠ r) (hpr : p ≠ r) :
    mostCommonVertex [q, r, p, q] = q := by
  apply mostCommonVertex_eq
  · simp
  · intro y hy hne
    have hcq : List.count q [q, r, p, q] = 2 := by
      simp [List.count_cons, Ne.symm hpq, hqr]
    rcases show y = q ∨ y = r ∨ y = p ∨ y = q by simpa using hy with h | h | h | h
    · exact absurd h hne
    · rw [h]
      have : List.count r [q, r, p, q] = 1 := by
        simp [List.count_cons, Ne.symm hqr, Ne.symm hpr]
      omega
    · rw [h]
      have : List.count p [q, r, p, q] = 1 := by
        simp [List.count_cons, hpq, hpr]
      omega
    · exact absurd h hne

theorem arrange_eval_012 (S : List Pt) (p q r : ℕ)
    (hpq : p ≠ q) (hqr : q ≠ r) (hpr : p ≠ r)
    (h : slots3 (dist2 (S.getD p (0,0)) (S.getD q (0,0)))
          (dist2 (S.getD q (0,0)) (S.getD r (0,0)))
          (dist2 (S.getD r (0,0)) (S.getD p (0,0))) = (0,1,2)) :
    arrangeTriplet S (p, q, r) = (q, r, p) := by
  simp only [arrangeTriplet, h]
  norm_num
  rw [mcv_shape1 p q r hpq hqr hpr,
      mcv_shape1 q r p hqr (Ne.symm hpr) (Ne.symm hpq),
      mcv_shape1 r p q (Ne.symm hpr) hpq (Ne.symm hqr)]
  exact ⟨rfl, rfl, rfl⟩

theorem arrange_eval_021 (S : List Pt) (p q r : ℕ)
    (hpq : p ≠ q) (hqr : q ≠ r) (hpr : p ≠ r)
    (h : slots3 (dist2 (S.getD p (0,0)) (S.getD q (0,0)))
          (dist2 (S.getD q (0,0)) (S.getD r (0,0)))
          (dist2 (S.getD r (0,0)) (S.getD p (0,0))) = (0,2,1)) :
    arrangeTriplet S (p, q, r) = (p, r, q) := by
  simp only [arrangeTriplet, h]
  norm_num
  rw [mcv_shape2 r p q (Ne.symm hpr) hpq (Ne.symm hqr),
      mcv_shape2 q r p hqr (Ne.symm hpr) (Ne.symm hpq),
      mcv_shape2 p q r hpq hqr hpr]
  exact ⟨rfl, rfl, rfl⟩

theorem arrange_eval_201 (S : List Pt) (p q r : ℕ)
    (hpq : p ≠ q) (hqr : q ≠ r) (hpr : p ≠ r)
    (h : slots3 (dist2 (S.getD p (0,0)) (S.getD q (0,0)))
          (dist2 (S.getD q (0,0)) (S.getD r (0,0)))
          (dist2 (S.getD r (0,0)) (S.getD p (0,0))) = (2,0,1)) :
    arrangeTriplet S (p, q, r) = (p, q, r) := by
  simp only [arrangeTriplet, h]
  norm_num
  rw [mcv_shape1 r p q (Ne.symm hpr) hpq (Ne.symm hqr),
      mcv_shape1 p q r hpq hqr hpr,
      mcv_shape1 q r p hqr (Ne.symm hpr) (Ne.symm hpq)]
  exact ⟨rfl, rfl, rfl⟩

theorem arrange_eval_102 (S : List Pt) (p q r : ℕ)
    (hpq : p ≠ q) (hqr : q ≠ r) (hpr : p ≠ r)
    (h : slots3 (dist2 (S.getD p (0,0)) (S.getD q (0,0)))
          (dist2 (S.getD q (0,0)) (S.getD r (0,0)))
          (dist2 (S.getD r (0,0)) (S.getD p (0,0))) = (1,0,2)) :
    arrangeTriplet S (p, q, r) = (q, p, r) := by
  simp only [arrangeTriplet, h]
  norm_num
  rw [mcv_shape2 p q r hpq hqr hpr,
      mcv_shape2 r p q (Ne.symm hpr) hpq (Ne.symm hqr),
      mcv_shape2 q r p hqr (Ne.symm hpr) (Ne.symm hpq)]
  exact ⟨rfl, rfl, rfl⟩

theorem arrange_eval_120 (S : List Pt) (p q r : ℕ)
    (hpq : p ≠ q) (hqr : q ≠ r) (hpr : p ≠ r)
    (h : slots3 (dist2 (S.getD p (0,0)) (S.getD q (0,0)))
          (dist2 (S.getD q (0,0)) (S.getD r (0,0)))
          (dist2 (S.getD r (0,0)) (S.getD p (0,0))) = (1,2,0)) :
    arrangeTriplet S (p, q, r) = (r, p, q) := by
  simp only [arrangeTriplet, h]
  norm_num
  rw [mcv_shape1 q r p hqr (Ne.symm hpr) (Ne.symm hpq),
      mcv_shape1 r p q (Ne.symm hpr) hpq (Ne.symm hqr),
      mcv_shape1 p q r hpq hqr hpr]
  exact ⟨rfl, rfl, rfl⟩

theorem arrange_eval_210 (S : List Pt) (p q r : ℕ)
    (hpq : p ≠ q) (hqr : q ≠ r) (hpr : p ≠ r)
    (h : slots3 (dist2 (S.getD p (0,0)) (S.getD q (0,0)))
          (dist2 (S.getD q (0,0)) (S.getD r (0,0)))
          (dist2 (S.getD r (0,0)) (S.getD p (0,0))) = (2,1,0)) :
    arrangeTriplet S (p, q, r) = (r, q, p) := by
  simp only [arrangeTriplet, h]
  norm_num
  rw [mcv_shape2 q r p hqr (Ne.symm hpr) (Ne.symm hpq),
      mcv_shape2 p q r hpq hqr hpr,
      mcv_shape2 r p q (Ne.symm hpr) hpq (Ne.symm hqr)]
  exact ⟨rfl, rfl, rfl⟩

/-- C3: amended canonicalization invariance.  The claim as stated fails for
triangles with tied side lengths (coincident points give a concrete
counterexample); provided the
three side lengths are pairwise distinct (equivalently, the squared
lengths compared here are pairwise distinct), every permutation of three
distinct indices canonicalizes to the identical ordered triple. -/
theorem C3_arrangeTriplet_permutation_invariant (S : List Pt) (i j k : ℕ)
    (_hi : i < S.length) (_hj : j < S.length) (_hk : k < S.length)
    (hij : i ≠ j) (hjk : j ≠ k) (hik : i ≠ k)
    (hAB : dist2 (S.getD i (0,0)) (S.getD j (0,0)) ≠ dist2 (S.getD j (0,0)) (S.getD k (0,0)))
    (hBC : dist2 (S.getD j (0,0)) (S.getD k (0,0)) ≠ dist2 (S.getD k (0,0)) (S.getD i (0,0)))
    (hAC : dist2 (S.getD i (0,0)) (S.getD j (0,0)) ≠ dist2 (S.getD k (0,0)) (S.getD i (0,0))) :
    arrangeTriplet S (j, k, i) = arrangeTriplet S (i, j, k) ∧
    arrangeTriplet S (k, i, j) = arrangeTriplet S (i, j, k) ∧
    arrangeTriplet S (j, i, k) = arrangeTriplet S (i, j, k) ∧
    arrangeTriplet S (i, k, j) = arrangeTriplet S (i, j, k) ∧
    arrangeTriplet S (k, j, i) = arrangeTriplet S (i, j, k) := by
  rcases lt_trichotomy (dist2 (S.getD i (0,0)) (S.getD j (0,0)))
      (dist2 (S.getD j (0,0)) (S.getD k (0,0))) with h1 | h1 | h1
  · rcases lt_trichotomy (dist2 (S.getD j (0,0)) (S.getD k (0,0)))
        (dist2 (S.getD k (0,0)) (S.getD i (0,0))) with h2 | h2 | h2
    · have h3 := h1.trans h2
      have e1 := arrange_eval_012 S i j k hij hjk hik (by
        simp only [slots3, le_of_lt h1, le_of_lt h2, le_of_lt h3, not_le.2 h1,
          not_le.2 h2, not_le.2 h3, if_true, if_false])
      have e2 := arrange_eval_201 S j k i hjk (Ne.symm hik) (Ne.symm hij) (by
        simp only [slots3, le_of_lt h1, le_of_lt h2, le_of_lt h3, not_le.2 h1,
          not_le.2 h2, not_le.2 h3, if_true, if_false])
      have e3 := arrange_eval_120 S k i j (Ne.symm hik) hij (Ne.symm hjk) (by
        simp only [slots3, le_of_lt h1, le_of_lt h2, le_of_lt h3, not_le.2 h1,
          not_le.2 h2, not_le.2 h3, if_true, if_false])
      have e4 := arrange_eval_021 S j i k (Ne.symm hij) hik hjk (by
        rw [dist2_comm (S.getD j (0,0)) (S.getD i (0,0)),
            dist2_comm (S.getD i (0,0)) (S.getD k (0,0)),
            dist2_comm (S.getD k (0,0)) (S.getD j (0,0))]
        simp only [slots3, le_of_lt h1, le_of_lt h2, le_of_lt h3, not_le.2 h1,
          not_le.2 h2, not_le.2 h3, if_true, if_false])
      have e5 := arrange_eval_210 S i k j hik (Ne.symm hjk) hij (by
        rw [dist2_comm (S.getD i (0,0)) (S.getD k (0,0)),
            dist2_comm (S.getD k (0,0)) (S.getD j (0,0)),
            dist2_comm (S.getD j (0,0)) (S.getD i (0,0))]
        simp only [slots3, le_of_lt h1, le_of_lt h2, le_of_lt h3, not_le.2 h1,
          not_le.2 h2, not_le.2 h3, if_true, if_false])
      have e6 := arrange_eval_102 S k j i (Ne.symm hjk) (Ne.symm hij) (Ne.symm hik) (by
        rw [dist2_comm (S.getD k (0,0)) (S.getD j (0,0)),
            dist2_comm (S.getD j (0,0)) (S.getD i (0,0)),
            dist2_comm (S.getD i (0,0)) (S.getD k (0,0))]
        simp only [slots3, le_of_lt h1, le_of_lt h2, le_of_lt h3, not_le.2 h1,
          not_le.2 h2, not_le.2 h3, if_true, if_false])
      exact ⟨by rw [e2, e1], by rw [e3, e1], by rw [e4, e1], by rw [e5, e1],
        by rw [e6, e1]⟩
    · exact absurd h2 hBC
    · rcases lt_trichotomy (dist2 (S.getD i (0,0)) (S.getD j (0,0)))
          (dist2 (S.getD k (0,0)) (S.getD i (0,0))) with h3 | h3 | h3
      · have _h2 := h2
        have e1 := arrange_eval_021 S i j k hij hjk hik (by
          simp only [slots3, le_of_lt h1, le_of_lt h2, le_of_lt h3, not_le.2 h1,
            not_le.2 h2, not_le.2 h3, if_true, if_false])
        have e2 := arrange_eval_210 S j k i hjk (Ne.symm hik) (Ne.symm hij) (by
          simp only [slots3, le_of_lt h1, le_of_lt h2, le_of_lt h3, not_le.2 h1,
            not_le.2 h2, not_le.2 h3, if_true, if_false])
        have e3 := arrange_eval_102 S k i j (Ne.symm hik) hij (Ne.symm hjk) (by
          simp only [slots3, le_of_lt h1, le_of_lt h2, le_of_lt h3, not_le.2 h1,
            not_le.2 h2, not_le.2 h3, if_true, if_false])
        have e4 := arrange_eval_012 S j i k (Ne.symm hij) hik hjk (by
          rw [dist2_comm (S.getD j (0,0)) (S.getD i (0,0)),
              dist2_comm (S.getD i (0,0)) (S.getD k (0,0)),
              dist2_comm (S.getD k (0,0)) (S.getD j (0,0))]
          simp only [slots3, le_of_lt h1, le_of_lt h2, le_of_lt h3, not_le.2 h1,
            not_le.2 h2, not_le.2 h3, if_true, if_false])
        have e5 := arrange_eval_201 S i k j hik (Ne.symm hjk) hij (by
          rw [dist2_comm (S.getD i (0,0)) (S.getD k (0,0)),
              dist2_comm (S.getD k (0,0)) (S.getD j (0,0)),
              dist2_comm (S.getD j (0,0)) (S.getD i (0,0))]
          simp only [slots3, le_of_lt h1, le_of_lt h2, le_of_lt h3, not_le.2 h1,
            not_le.2 h2, not_le.2 h3, if_true, if_false])
        have e6 := arrange_eval_120 S k j i (Ne.symm hjk) (Ne.symm hij) (Ne.symm hik) (by
          rw [dist2_comm (S.getD k (0,0)) (S.getD j (0,0)),
              dist2_comm (S.getD j (0,0)) (S.getD i (0,0)),
              dist2_comm (S.getD i (0,0)) (S.getD k (0,0))]
          simp only [slots3, le_of_lt h1, le_of_lt h2, le_of_lt h3, not_le.2 h1,
            not_le.2 h2, not_le.2 h3, if_true, if_false])
        exact ⟨by rw [e2, e1], by rw [e3, e1], by rw [e4, e1], by rw [e5, e1],
          by rw [e6, e1]⟩
      · exact absurd h3 hAC
      · have _h2 := h2
        have e1 := arrange_eval_201 S i j k hij hjk hik (by
          simp only [slots3, le_of_lt h1, le_of_lt h2, le_of_lt h3, not_le.2 h1,
            not_le.2 h2, not_le.2 h3, if_true, if_false])
        have e2 := arrange_eval_120 S j k i hjk (Ne.symm hik) (Ne.symm hij) (by
          simp only [slots3, le_of_lt h1, le_of_lt h2, le_of_lt h3, not_le.2 h1,
            not_le.2 h2, not_le.2 h3, if_true, if_false])
        have e3 := arrange_eval_012 S k i j (Ne.symm hik) hij (Ne.symm hjk) (by
          simp only [slots3, le_of_lt h1, le_of_lt h2, le_of_lt h3, not_le.2 h1,
            not_le.2 h2, not_le.2 h3, if_true, if_false])
        have e4 := arrange_eval_102 S j i k (Ne.symm hij) hik hjk (by
          rw [dist2_comm (S.getD j (0,0)) (S.getD i (0,0)),
              dist2_comm (S.getD i (0,0)) (S.getD k (0,0)),
              dist2_comm (S.getD k (0,0)) (S.getD j (0,0))]
          simp only [slots3, le_of_lt h1, le_of_lt h2, le_of_lt h3, not_le.2 h1,
            not_le.2 h2, not_le.2 h3, if_true, if_false])
        have e5 := arrange_eval_021 S i k j hik (Ne.symm hjk) hij (by
          rw [dist2_comm (S.getD i (0,0)) (S.getD k (0,0)),
              dist2_comm (S.getD k (0,0)) (S.getD j (0,0)),
              dist2_comm (S.getD j (0,0)) (S.getD i (0,0))]
          simp only [slots3, le_of_lt h1, le_of_lt h2, le_of_lt h3, not_le.2 h1,
            not_le.2 h2, not_le.2 h3, if_true, if_false])
        have e6 := arrange_eval_210 S k j i (Ne.symm hjk) (Ne.symm hij) (Ne.symm hik) (by
          rw [dist2_comm (S.getD k (0,0)) (S.getD j (0,0)),
              dist2_comm (S.getD j (0,0)) (S.getD i (0,0)),
              dist2_comm (S.getD i (0,0)) (S.getD k (0,0))]
          simp only [slots3, le_of_lt h1, le_of_lt h2, le_of_lt h3, not_le.2 h1,
            not_le.2 h2, not_le.2 h3, if_true, if_false])
        exact ⟨by rw [e2, e1], by rw [e3, e1], by rw [e4, e1], by rw [e5, e1],
          by rw [e6, e1]⟩
  · exact absurd h1 hAB
  · rcases lt_trichotomy (dist2 (S.getD j (0,0)) (S.getD k (0,0)))
        (dist2 (S.getD k (0,0)) (S.getD i (0,0))) with h2 | h2 | h2
    · rcases lt_trichotomy (dist2 (S.getD i (0,0)) (S.getD j (0,0)))
          (dist2 (S.getD k (0,0)) (S.getD i (0,0))) with h3 | h3 | h3
      · have _h1 := h1
        have e1 := arrange_eval_102 S i j k hij hjk hik (by
          simp only [slots3, le_of_lt h1, le_of_lt h2, le_of_lt h3, not_le.2 h1,
            not_le.2 h2, not_le.2 h3, if_true, if_false])
        have e2 := arrange_eval_021 S j k i hjk (Ne.symm hik) (Ne.symm hij) (by
          simp only [slots3, le_of_lt h1, le_of_lt h2, le_of_lt h3, not_le.2 h1,
            not_le.2 h2, not_le.2 h3, if_true, if_false])
        have e3 := arrange_eval_210 S k i j (Ne.symm hik) hij (Ne.symm hjk) (by
          simp only [slots3, le_of_lt h1, le_of_lt h2, le_of_lt h3, not_le.2 h1,
            not_le.2 h2, not_le.2 h3, if_true, if_false])
        have e4 := arrange_eval_201 S j i k (Ne.symm hij) hik hjk (by
          rw [dist2_comm (S.getD j (0,0)) (S.getD i (0,0)),
              dist2_comm (S.getD i (0,0)) (S.getD k (0,0)),
              dist2_comm (S.getD k (0,0)) (S.getD j (0,0))]
          simp only [slots3, le_of_lt h1, le_of_lt h2, le_of_lt h3, not_le.2 h1,
            not_le.2 h2, not_le.2 h3, if_true, if_false])
        have e5 := arrange_eval_120 S i k j hik (Ne.symm hjk) hij (by
          rw [dist2_comm (S.getD i (0,0)) (S.getD k (0,0)),
              dist2_comm (S.getD k (0,0)) (S.getD j (0,0)),
              dist2_comm (S.getD j (0,0)) (S.getD i (0,0))]
          simp only [slots3, le_of_lt h1, le_of_lt h2, le_of_lt h3, not_le.2 h1,
            not_le.2 h2, not_le.2 h3, if_true, if_false])
        have e6 := arrange_eval_012 S k j i (Ne.symm hjk) (Ne.symm hij) (Ne.symm hik) (by
          rw [dist2_comm (S.getD k (0,0)) (S.getD j (0,0)),
              dist2_comm (S.getD j (0,0)) (S.getD i (0,0)),
              dist2_comm (S.getD i (0,0)) (S.getD k (0,0))]
          simp only [slots3, le_of_lt h1, le_of_lt h2, le_of_lt h3, not_le.2 h1,
            not_le.2 h2, not_le.2 h3, if_true, if_false])
        exact ⟨by rw [e2, e1], by rw [e3, e1], by rw [e4, e1], by rw [e5, e1],
          by rw [e6, e1]⟩
      · exact absurd h3 hAC
      · have _h1 := h1
        have e1 := arrange_eval_120 S i j k hij hjk hik (by
          simp only [slots3, le_of_lt h1, le_of_lt h2, le_of_lt h3, not_le.2 h1,
            not_le.2 h2, not_le.2 h3, if_true, if_false])
        have e2 := arrange_eval_012 S j k i hjk (Ne.symm hik) (Ne.symm hij) (by
          simp only [slots3, le_of_lt h1, le_of_lt h2, le_of_lt h3, not_le.2 h1,
            not_le.2 h2, not_le.2 h3, if_true, if_false])
        have e3 := arrange_eval_201 S k i j (Ne.symm hik) hij (Ne.symm hjk) (by
          simp only [slots3, le_of_lt h1, le_of_lt h2, le_of_lt h3, not_le.2 h1,
            not_le.2 h2, not_le.2 h3, if_true, if_false])
        have e4 := arrange_eval_210 S j i k (Ne.symm hij) hik hjk (by
          rw [dist2_comm (S.getD j (0,0)) (S.getD i (0,0)),
              dist2_comm (S.getD i (0,0)) (S.getD k (0,0)),
              dist2_comm (S.getD k (0,0)) (S.getD j (0,0))]
          simp only [slots3, le_of_lt h1, le_of_lt h2, le_of_lt h3, not_le.2 h1,
            not_le.2 h2, not_le.2 h3, if_true, if_false])
        have e5 := arrange_eval_102 S i k j hik (Ne.symm hjk) hij (by
          rw [dist2_comm (S.getD i (0,0)) (S.getD k (0,0)),
              dist2_comm (S.getD k (0,0)) (S.getD j (0,0)),
              dist2_comm (S.getD j (0,0)) (S.getD i (0,0))]
          simp only [slots3, le_of_lt h1, le_of_lt h2, le_of_lt h3, not_le.2 h1,
            not_le.2 h2, not_le.2 h3, if_true, if_false])
        have e6 := arrange_eval_021 S k j i (Ne.symm hjk) (Ne.symm hij) (Ne.symm hik) (by
          rw [dist2_comm (S.getD k (0,0)) (S.getD j (0,0)),
              dist2_comm (S.getD j (0,0)) (S.getD i (0,0)),
              dist2_comm (S.getD i (0,0)) (S.getD k (0,0))]
          simp only [slots3, le_of_lt h1, le_of_lt h2, le_of_lt h3, not_le.2 h1,
            not_le.2 h2, not_le.2 h3, if_true, if_false])
        exact ⟨by rw [e2, e1], by rw [e3, e1], by rw [e4, e1], by rw [e5, e1],
          by rw [e6, e1]⟩
    · exact absurd h2 hBC
    · have h3 := h2.trans h1
      have e1 := arrange_eval_210 S i j k hij hjk hik (by
        simp only [slots3, le_of_lt h1, le_of_lt h2, le_of_lt h3, not_le.2 h1,
          not_le.2 h2, not_le.2 h3, if_true, if_false])
      have e2 := arrange_eval_102 S j k i hjk (Ne.symm hik) (Ne.symm hij) (by
        simp only [slots3, le_of_lt h1, le_of_lt h2, le_of_lt h3, not_le.2 h1,
          not_le.2 h2, not_le.2 h3, if_true, if_false])
      have e3 := arrange_eval_021 S k i j (Ne.symm hik) hij (Ne.symm hjk) (by
        simp only [slots3, le_of_lt h1, le_of_lt h2, le_of_lt h3, not_le.2 h1,
          not_le.2 h2, not_le.2 h3, if_true, if_false])
      have e4 := arrange_eval_120 S j i k (Ne.symm hij) hik hjk (by
        rw [dist2_comm (S.getD j (0,0)) (S.getD i (0,0)),
            dist2_comm (S.getD i (0,0)) (S.getD k (0,0)),
            dist2_comm (S.getD k (0,0)) (S.getD j (0,0))]
        simp only [slots3, le_of_lt h1, le_of_lt h2, le_of_lt h3, not_le.2 h1,
          not_le.2 h2, not_le.2 h3, if_true, if_false])
      have e5 := arrange_eval_012 S i k j hik (Ne.symm hjk) hij (by
        rw [dist2_comm (S.getD i (0,0)) (S.getD k (0,0)),
            dist2_comm (S.getD k (0,0)) (S.getD j (0,0)),
            dist2_comm (S.getD j (0,0)) (S.getD i (0,0))]
        simp only [slots3, le_of_lt h1, le_of_lt h2, le_of_lt h3, not_le.2 h1,
          not_le.2 h2, not_le.2 h3, if_true, if_false])
      have e6 := arrange_eval_201 S k j i (Ne.symm hjk) (Ne.symm hij) (Ne.symm hik) (by
        rw [dist2_comm (S.getD k (0,0)) (S.getD j (0,0)),
            dist2_comm (S.getD j (0,0)) (S.getD i (0,0)),
            dist2_comm (S.getD i (0,0)) (S.getD k (0,0))]
        simp only [slots3, le_of_lt h1, le_of_lt h2, le_of_lt h3, not_le.2 h1,
          not_le.2 h2, not_le.2 h3, if_true, if_false])
      exact ⟨by rw [e2, e1], by rw [e3, e1], by rw [e4, e1], by rw [e5, e1],
        by rw [e6, e1]⟩

/-- C3: counterexample to the claim as stated.  For the point set with
three coincident points (all side lengths tied), the permutations
`(0, 1, 2)` and `(1, 0, 2)` of the same three distinct indices
canonicalize to different ordered triples, so canonicalization is not
independent of the input permutation in general. -/
theorem C3_counterexample :
    arrangeTriplet [((0 : ℚ), (0 : ℚ)), (0, 0), (0, 0)] (0, 1, 2) ≠
      arrangeTriplet [((0 : ℚ), (0 : ℚ)), (0, 0), (0, 0)] (1, 0, 2) := by
  norm_num [arrangeTriplet, slots3, dist2, mostCommonVertex, List.insertionSort,
    List.orderedInsert, List.dedup, argmaxCount, List.count_cons, List.count_nil]

/-- C3: witness instantiating the amended invariance theorem on a concrete
scalene triangle. -/
theorem C3_witness :
    arrangeTriplet [((0 : ℚ), (0 : ℚ)), (2, 0), (0, 1)] (1, 2, 0) =
      arrangeTriplet [((0 : ℚ), (0 : ℚ)), (2, 0), (0, 1)] (0, 1, 2) :=
  (C3_arrangeTriplet_permutation_invariant [((0 : ℚ), (0 : ℚ)), (2, 0), (0, 1)] 0 1 2
    (by norm_num) (by norm_num) (by norm_num) (by norm_num) (by norm_num) (by norm_num)
    (by norm_num [dist2]) (by norm_num [dist2]) (by norm_num [dist2])).1

theorem triples_eq_nil {l : List ℕ} (h : l.length < 3) : triples l = [] := by
  rcases l with _ | ⟨a, _ | ⟨b, _ | ⟨c, tl⟩⟩⟩
  · rfl
  · rfl
  · simp [triples, pairsOf]
  · simp at h
    omega

theorem knnQuery_length (points : List Pt) (q : Pt) (k : ℕ) :
    (knnQuery points q k).length = min k points.length := by
  unfold knnQuery
  rw [List.length_take, List.length_map, List.length_insertionSort, List.length_map,
    List.length_range]

/-- C9: on an input with fewer than 3 points no triangle can be formed and
`generateInvariants` returns the empty invariant set (empty descriptor
list and empty triangle list) without failing. -/
theorem C9_generateInvariants_small (sources : List Pt) (h : sources.length < 3) :
    generateInvariants sources = ([], []) := by
  have hanchor : anchorTriangles sources = [] := by
    unfold anchorTriangles
    rw [List.flatMap_eq_nil_iff]
    intro asrc _
    rw [triples_eq_nil, List.map_nil]
    rw [knnQuery_length]
    omega
  unfold generateInvariants allDescriptors
  rw [hanchor]
  rfl

/-- C9: witness on a concrete two-point input. -/
theorem C9_witness : generateInvariants [((0 : ℚ), (0 : ℚ)), (1, 1)] = ([], []) :=
  C9_generateInvariants_small [((0 : ℚ), (0 : ℚ)), (1, 1)] (by norm_num)

theorem uniqIndices_map_getD {α : Type} [DecidableEq α] (l : List α) (d : α) :
    (uniqIndices l).map (fun i => l.getD i d) = l.dedup := by
  induction l with
  | nil => rfl
  | cons x xs ih =>
    by_cases hx : x ∈ xs
    · rw [List.dedup_cons_of_mem hx, ← ih]
      simp [uniqIndices, hx, List.map_map, Function.comp_def]
    · rw [List.dedup_cons_of_not_mem hx, ← ih]
      simp [uniqIndices, hx, List.map_map, Function.comp_def]

theorem mem_uniqIndices {α : Type} [DecidableEq α] (d : α) :
    ∀ (l : List α) (p : ℕ), p ∈ uniqIndices l ↔
      p < l.length ∧ ∀ q, p < q → q < l.length → l.getD q d ≠ l.getD p d
  | [], p => by simp [uniqIndices]
  | x :: xs, 0 => by
    constructor
    · intro hp
      refine ⟨by simp, ?_⟩
      have hx : x ∉ xs := by
        by_contra hmem
        simp [uniqIndices, hmem] at hp
      intro q h0 hq
      rcases q with _ | i
      · omega
      · simp only [List.getD_cons_succ, List.getD_cons_zero]
        intro heq
        rw [List.getD_eq_getElem xs d (by simpa using hq : i < xs.length)] at heq
        exact hx (heq ▸ List.getElem_mem _)
    · rintro ⟨-, hall⟩
      have hx : x ∉ xs := by
        intro hmem
        rcases List.mem_iff_getElem.1 hmem with ⟨i, hi, hgi⟩
        exact hall (i + 1) (by omega) (by simpa using hi)
          (by simp [List.getD_cons_succ, List.getD_cons_zero,
                List.getD_eq_getElem?_getD, List.getElem?_eq_getElem hi, hgi])
      simp [uniqIndices, hx]
  | x :: xs, p + 1 => by
    have ih := mem_uniqIndices d xs p
    constructor
    · intro hp
      have hp' : p ∈ uniqIndices xs := by
        rcases List.mem_append.1 hp with h | h
        · by_cases hmem : x ∈ xs <;> simp [hmem] at h
        · simpa using h
      rcases ih.1 hp' with ⟨hlen, hall⟩
      refine ⟨by simpa using hlen, ?_⟩
      intro q hq hqlen
      rcases q with _ | i
      · omega
      · simpa using hall i (by omega) (by simpa using hqlen)
    · rintro ⟨hlen, hall⟩
      have hp' : p ∈ uniqIndices xs := by
        refine ih.2 ⟨by simpa using hlen, ?_⟩
        intro q hq hqlen
        simpa using hall (q + 1) (by omega) (by simpa using hqlen)
      exact List.mem_append.2 (Or.inr (List.mem_map.2 ⟨p, hp', rfl⟩))

/-- C5: deduplication correctness of `generateInvariants`.  The returned
descriptor list is exactly the list of distinct descriptors among all
candidate triangles considered (`List.dedup` keeps, for every duplicated
value, its last occurrence), so its size equals the number of distinct
descriptors and never exceeds the candidate count; and a candidate
position is retained exactly when no later candidate has an equal
descriptor (the earlier of two equal entries is discarded, the later one
kept). -/
theorem C5_generateInvariants_dedup (sources : List Pt) :
    (generateInvariants sources).1 = (allDescriptors sources).dedup ∧
    (generateInvariants sources).1.length = (allDescriptors sources).dedup.length ∧
    (generateInvariants sources).1.length ≤ (allDescriptors sources).length ∧
    (∀ p, p ∈ uniqIndices (allDescriptors sources) ↔
      p < (allDescriptors sources).length ∧
      ∀ q, p < q → q < (allDescriptors sources).length →
        (allDescriptors sources).getD q (0, 0) ≠ (allDescriptors sources).getD p (0, 0)) := by
  have h1 : (generateInvariants sources).1 = (allDescriptors sources).dedup :=
    uniqIndices_map_getD (allDescriptors sources) (0, 0)
  refine ⟨h1, by rw [h1], ?_, fun p => mem_uniqIndices (0, 0) (allDescriptors sources) p⟩
  rw [h1]
  exact (List.dedup_sublist _).length_le

/-- C5: witness instantiating the deduplication theorem on the unit
square, whose sixteen candidate triangles all share one descriptor. -/
theorem C5_witness :
    (generateInvariants [((0 : ℚ), (0 : ℚ)), (1, 0), (0, 1), (1, 1)]).1 =
      (allDescriptors [((0 : ℚ), (0 : ℚ)), (1, 0), (0, 1), (1, 1)]).dedup :=
  (C5_generateInvariants_dedup [((0 : ℚ), (0 : ℚ)), (1, 0), (0, 1), (1, 1)]).1

theorem dist2_nonneg (p q : Pt) : 0 ≤ dist2 p q := by
  unfold dist2; positivity

theorem dist2_pos_of_ne {p q : Pt} (h : p ≠ q) : 0 < dist2 p q := by
  rcases lt_or_eq_of_le (dist2_nonneg p q) with hlt | heq
  · exact hlt
  · exfalso
    apply h
    unfold dist2 at heq
    have h1 : (p.1 - q.1) ^ 2 = 0 ∧ (p.2 - q.2) ^ 2 = 0 := by
      constructor <;> nlinarith [sq_nonneg (p.1 - q.1), sq_nonneg (p.2 - q.2)]
    have e1 : p.1 = q.1 := by nlinarith [h1.1]
    have e2 : p.2 = q.2 := by nlinarith [h1.2]
    exact Prod.ext e1 e2

theorem sort3_sorted {α : Type} [LinearOrder α] (a b c : α) :
    (sort3 a b c).1 ≤ (sort3 a b c).2.1 ∧ (sort3 a b c).2.1 ≤ (sort3 a b c).2.2 := by
  unfold sort3
  split_ifs with h1 h2 h3 h4 h5 <;>
    exact ⟨by first | assumption | exact le_of_not_le (by assumption),
           by first | assumption | exact le_of_not_le (by assumption)⟩

theorem sort3_sqrt (a b c : ℚ) (hb : 0 ≤ b) (hc : 0 ≤ c) :
    sort3 (Real.sqrt (a : ℝ)) (Real.sqrt (b : ℝ)) (Real.sqrt (c : ℝ)) =
      (Real.sqrt ((sort3 a b c).1 : ℝ), Real.sqrt ((sort3 a b c).2.1 : ℝ),
       Real.sqrt ((sort3 a b c).2.2 : ℝ)) := by
  have hab : Real.sqrt (a : ℝ) ≤ Real.sqrt (b : ℝ) ↔ a ≤ b := by
    rw [Real.sqrt_le_sqrt_iff (by exact_mod_cast hb)]; exact_mod_cast Iff.rfl
  have hbc : Real.sqrt (b : ℝ) ≤ Real.sqrt (c : ℝ) ↔ b ≤ c := by
    rw [Real.sqrt_le_sqrt_iff (by exact_mod_cast hc)]; exact_mod_cast Iff.rfl
  have hac : Real.sqrt (a : ℝ) ≤ Real.sqrt (c : ℝ) ↔ a ≤ c := by
    rw [Real.sqrt_le_sqrt_iff (by exact_mod_cast hc)]; exact_mod_cast Iff.rfl
  simp only [sort3, hab, hbc, hac]
  split_ifs <;> rfl

/-- All three components of `sort3` are nonnegative when the inputs are. -/
theorem sort3_nonneg (a b c : ℚ) (ha : 0 ≤ a) (hb : 0 ≤ b) (hc : 0 ≤ c) :
    0 ≤ (sort3 a b c).1 ∧ 0 ≤ (sort3 a b c).2.1 ∧ 0 ≤ (sort3 a b c).2.2 := by
  unfold sort3
  split_ifs <;> exact ⟨by assumption, by assumption, by assumption⟩

/-- Both components of the squared descriptor are nonnegative (the ratios
have nonnegative numerator and denominator; a zero denominator yields `0`
under rational junk division, still nonnegative). -/
theorem invariantFeaturesSq_nonneg (x1 x2 x3 : Pt) :
    0 ≤ (invariantFeaturesSq x1 x2 x3).1 ∧ 0 ≤ (invariantFeaturesSq x1 x2 x3).2 := by
  have h := sort3_nonneg (dist2 x1 x2) (dist2 x2 x3) (dist2 x1 x3)
    (dist2_nonneg _ _) (dist2_nonneg _ _) (dist2_nonneg _ _)
  unfold invariantFeaturesSq
  exact ⟨div_nonneg h.2.2 h.2.1, div_nonneg h.2.1 h.1⟩

/-- Bit-for-bit equality of the real descriptors coincides with exact
equality of the squared rational descriptors: `Real.sqrt` is injective on
nonnegative inputs, so comparing descriptors before or after the square
roots yields the same verdict. -/
theorem invariantFeatures_inj (x1 x2 x3 y1 y2 y3 : Pt) :
    invariantFeatures x1 x2 x3 = invariantFeatures y1 y2 y3 ↔
      invariantFeaturesSq x1 x2 x3 = invariantFeaturesSq y1 y2 y3 := by
  have hx := invariantFeaturesSq_nonneg x1 x2 x3
  have hy := invariantFeaturesSq_nonneg y1 y2 y3
  rw [invariantFeatures_eq_sqrt, invariantFeatures_eq_sqrt, Prod.ext_iff, Prod.ext_iff]
  constructor
  · rintro ⟨h1, h2⟩
    constructor
    · exact_mod_cast (Real.sqrt_inj (by exact_mod_cast hx.1) (by exact_mod_cast hy.1)).mp h1
    · exact_mod_cast (Real.sqrt_inj (by exact_mod_cast hx.2) (by exact_mod_cast hy.2)).mp h2
  · rintro ⟨h1, h2⟩
    exact ⟨by rw [h1], by rw [h2]⟩

/-- The decision procedure `sqrtSumGe` computes exactly the real inequality
its name promises: for
nonnegative rationals `u`, `v` it returns `true` iff `t ≤ 2·(√u + √v)`. -/
theorem sqrtSumGe_iff (u v t : ℚ) (hu : 0 ≤ u) (hv : 0 ≤ v) :
    sqrtSumGe u v t = true ↔
      (t : ℝ) ≤ 2 * (Real.sqrt (u : ℝ) + Real.sqrt (v : ℝ)) := by
  have hu' : (0 : ℝ) ≤ (u : ℝ) := by exact_mod_cast hu
  have hv' : (0 : ℝ) ≤ (v : ℝ) := by exact_mod_cast hv
  have hS : (0 : ℝ) ≤ 2 * (Real.sqrt (u : ℝ) + Real.sqrt (v : ℝ)) := by positivity
  have h1 : Real.sqrt (u : ℝ) ^ 2 = (u : ℝ) := Real.sq_sqrt hu'
  have h2 : Real.sqrt (v : ℝ) ^ 2 = (v : ℝ) := Real.sq_sqrt hv'
  have hsq : (2 * (Real.sqrt (u : ℝ) + Real.sqrt (v : ℝ))) ^ 2
      = 4 * ((u : ℝ) + (v : ℝ)) + 8 * Real.sqrt ((u : ℝ) * (v : ℝ)) := by
    rw [Real.sqrt_mul hu']
    linear_combination (4 : ℝ) * h1 + 4 * h2
  unfold sqrtSumGe
  by_cases ht0 : t ≤ 0
  · rw [if_pos ht0]
    exact iff_of_true rfl (le_trans (by exact_mod_cast ht0) hS)
  · rw [if_neg ht0]
    have ht : (0 : ℝ) < (t : ℝ) := by exact_mod_cast lt_of_not_le ht0
    have key : (t : ℝ) ≤ 2 * (Real.sqrt (u : ℝ) + Real.sqrt (v : ℝ)) ↔
        (t : ℝ) ^ 2 ≤ 4 * ((u : ℝ) + (v : ℝ)) + 8 * Real.sqrt ((u : ℝ) * (v : ℝ)) := by
      rw [← hsq, pow_le_pow_iff_left₀ ht.le hS two_ne_zero]
    have hsuv : (0 : ℝ) ≤ Real.sqrt ((u : ℝ) * (v : ℝ)) := Real.sqrt_nonneg _
    by_cases hw0 : t ^ 2 - 4 * (u + v) ≤ 0
    · rw [if_pos hw0]
      refine iff_of_true rfl (key.mpr ?_)
      have hw0' : (t : ℝ) ^ 2 - 4 * ((u : ℝ) + (v : ℝ)) ≤ 0 := by
        have : ((t ^ 2 - 4 * (u + v) : ℚ) : ℝ) ≤ ((0 : ℚ) : ℝ) := by exact_mod_cast hw0
        push_cast at this
        linarith
      linarith
    · rw [if_neg hw0]
      have hW : (0 : ℝ) ≤ (t : ℝ) ^ 2 - 4 * ((u : ℝ) + (v : ℝ)) := by
        have : ((0 : ℚ) : ℝ) ≤ ((t ^ 2 - 4 * (u + v) : ℚ) : ℝ) := by
          exact_mod_cast (lt_of_not_le hw0).le
        push_cast at this
        linarith
      have hA : (0 : ℝ) ≤ 8 * Real.sqrt ((u : ℝ) * (v : ℝ)) := by positivity
      have hA2 : (8 * Real.sqrt ((u : ℝ) * (v : ℝ))) ^ 2 = 64 * ((u : ℝ) * (v : ℝ)) := by
        rw [mul_pow, Real.sq_sqrt (mul_nonneg hu' hv')]
        norm_num
      have cast_iff : (t ^ 2 - 4 * (u + v)) ^ 2 ≤ 64 * (u * v) ↔
          ((t : ℝ) ^ 2 - 4 * ((u : ℝ) + (v : ℝ))) ^ 2 ≤ 64 * ((u : ℝ) * (v : ℝ)) := by
        rw [show ((t : ℝ) ^ 2 - 4 * ((u : ℝ) + (v : ℝ))) ^ 2
              = (((t ^ 2 - 4 * (u + v)) ^ 2 : ℚ) : ℝ) by push_cast; ring,
            show (64 * ((u : ℝ) * (v : ℝ))) = ((64 * (u * v) : ℚ) : ℝ) by push_cast; ring]
        exact_mod_cast Iff.rfl
      rw [decide_eq_true_eq, key, cast_iff, ← hA2,
        pow_le_pow_iff_left₀ hW hA two_ne_zero]
      constructor <;> intro h <;> linarith

/-- The radius test `matched` decides membership in the source's
`0.1`-radius ball: for
descriptors with nonnegative squared components it returns `true` iff the
Euclidean distance between the real descriptors `(√a₁, √a₂)` and
`(√b₁, √b₂)` is at most `0.1`. -/
theorem matched_iff (a b : ℚ × ℚ) (ha1 : 0 ≤ a.1) (ha2 : 0 ≤ a.2)
    (hb1 : 0 ≤ b.1) (hb2 : 0 ≤ b.2) :
    matched a b = true ↔
      (Real.sqrt (a.1 : ℝ) - Real.sqrt (b.1 : ℝ)) ^ 2 +
        (Real.sqrt (a.2 : ℝ) - Real.sqrt (b.2 : ℝ)) ^ 2 ≤ (1 / 10 : ℝ) ^ 2 := by
  rw [matched, sqrtSumGe_iff _ _ _ (mul_nonneg ha1 hb1) (mul_nonneg ha2 hb2)]
  have e1 : Real.sqrt ((a.1 * b.1 : ℚ) : ℝ) = Real.sqrt (a.1 : ℝ) * Real.sqrt (b.1 : ℝ) := by
    rw [show ((a.1 * b.1 : ℚ) : ℝ) = (a.1 : ℝ) * (b.1 : ℝ) by push_cast; ring]
    exact Real.sqrt_mul (by exact_mod_cast ha1) _
  have e2 : Real.sqrt ((a.2 * b.2 : ℚ) : ℝ) = Real.sqrt (a.2 : ℝ) * Real.sqrt (b.2 : ℝ) := by
    rw [show ((a.2 * b.2 : ℚ) : ℝ) = (a.2 : ℝ) * (b.2 : ℝ) by push_cast; ring]
    exact Real.sqrt_mul (by exact_mod_cast ha2) _
  have s1 := Real.sq_sqrt (show (0 : ℝ) ≤ (a.1 : ℝ) by exact_mod_cast ha1)
  have s2 := Real.sq_sqrt (show (0 : ℝ) ≤ (a.2 : ℝ) by exact_mod_cast ha2)
  have s3 := Real.sq_sqrt (show (0 : ℝ) ≤ (b.1 : ℝ) by exact_mod_cast hb1)
  have s4 := Real.sq_sqrt (show (0 : ℝ) ≤ (b.2 : ℝ) by exact_mod_cast hb2)
  have expand : (Real.sqrt (a.1 : ℝ) - Real.sqrt (b.1 : ℝ)) ^ 2 +
      (Real.sqrt (a.2 : ℝ) - Real.sqrt (b.2 : ℝ)) ^ 2
      = ((a.1 : ℝ) + (b.1 : ℝ) + (a.2 : ℝ) + (b.2 : ℝ)) -
        2 * (Real.sqrt (a.1 : ℝ) * Real.sqrt (b.1 : ℝ) +
          Real.sqrt (a.2 : ℝ) * Real.sqrt (b.2 : ℝ)) := by
    linear_combination s1 + s2 + s3 + s4
  have hc : ((a.1 + b.1 + a.2 + b.2 - 1 / 100 : ℚ) : ℝ)
      = (a.1 : ℝ) + (b.1 : ℝ) + (a.2 : ℝ) + (b.2 : ℝ) - 1 / 100 := by
    push_cast
    ring
  have hten : ((1 : ℝ) / 10) ^ 2 = 1 / 100 := by norm_num
  rw [e1, e2, hc, expand, hten]
  constructor <;> intro h <;> linarith

/-- C8: for a triangle with pairwise distinct vertices, the invariant
descriptor equals `(L3/L2, L2/L1)` where `L1 ≤ L2 ≤ L3` are the sorted
side lengths (square roots of the three pairwise squared distances, the
roots taken only when forming the ratios), and both components are at
least 1. -/
theorem C8_invariantFeatures_ratios (x1 x2 x3 : Pt)
    (h12 : x1 ≠ x2) (h23 : x2 ≠ x3) (h13 : x1 ≠ x3) :
    invariantFeatures x1 x2 x3 =
      ((sort3 (Real.sqrt ((dist2 x1 x2 : ℚ) : ℝ)) (Real.sqrt ((dist2 x2 x3 : ℚ) : ℝ))
          (Real.sqrt ((dist2 x1 x3 : ℚ) : ℝ))).2.2 /
       (sort3 (Real.sqrt ((dist2 x1 x2 : ℚ) : ℝ)) (Real.sqrt ((dist2 x2 x3 : ℚ) : ℝ))
          (Real.sqrt ((dist2 x1 x3 : ℚ) : ℝ))).2.1,
       (sort3 (Real.sqrt ((dist2 x1 x2 : ℚ) : ℝ)) (Real.sqrt ((dist2 x2 x3 : ℚ) : ℝ))
          (Real.sqrt ((dist2 x1 x3 : ℚ) : ℝ))).2.1 /
       (sort3 (Real.sqrt ((dist2 x1 x2 : ℚ) : ℝ)) (Real.sqrt ((dist2 x2 x3 : ℚ) : ℝ))
          (Real.sqrt ((dist2 x1 x3 : ℚ) : ℝ))).1) ∧
    1 ≤ (invariantFeatures x1 x2 x3).1 ∧ 1 ≤ (invariantFeatures x1 x2 x3).2 := by
  have h1p : 0 < dist2 x1 x2 := dist2_pos_of_ne h12
  have h2p : 0 < dist2 x2 x3 := dist2_pos_of_ne h23
  have h3p : 0 < dist2 x1 x3 := dist2_pos_of_ne h13
  have hs1 : 0 < (sort3 (dist2 x1 x2) (dist2 x2 x3) (dist2 x1 x3)).1 := by
    unfold sort3; split_ifs <;> first | exact h1p | exact h2p | exact h3p
  have hsorted := sort3_sorted (dist2 x1 x2) (dist2 x2 x3) (dist2 x1 x3)
  have hs2 : 0 < (sort3 (dist2 x1 x2) (dist2 x2 x3) (dist2 x1 x3)).2.1 :=
    lt_of_lt_of_le hs1 hsorted.1
  have hs3 : 0 < (sort3 (dist2 x1 x2) (dist2 x2 x3) (dist2 x1 x3)).2.2 :=
    lt_of_lt_of_le hs2 hsorted.2
  rw [sort3_sqrt _ _ _ (dist2_nonneg x2 x3) (dist2_nonneg x1 x3)]
  constructor
  · unfold invariantFeatures
    dsimp only
    have e1 : ((((sort3 (dist2 x1 x2) (dist2 x2 x3) (dist2 x1 x3)).2.2 /
        (sort3 (dist2 x1 x2) (dist2 x2 x3) (dist2 x1 x3)).2.1 : ℚ)) : ℝ) =
        ((sort3 (dist2 x1 x2) (dist2 x2 x3) (dist2 x1 x3)).2.2 : ℝ) /
        ((sort3 (dist2 x1 x2) (dist2 x2 x3) (dist2 x1 x3)).2.1 : ℝ) := by push_cast; ring
    have e2 : ((((sort3 (dist2 x1 x2) (dist2 x2 x3) (dist2 x1 x3)).2.1 /
        (sort3 (dist2 x1 x2) (dist2 x2 x3) (dist2 x1 x3)).1 : ℚ)) : ℝ) =
        ((sort3 (dist2 x1 x2) (dist2 x2 x3) (dist2 x1 x3)).2.1 : ℝ) /
        ((sort3 (dist2 x1 x2) (dist2 x2 x3) (dist2 x1 x3)).1 : ℝ) := by push_cast; ring
    rw [e1, e2, Real.sqrt_div (by positivity) _, Real.sqrt_div (by positivity) _]
  · constructor
    · unfold invariantFeatures
      dsimp only
      rw [show (1 : ℝ) = 1 ^ 2 by norm_num]
      rw [Real.le_sqrt (by norm_num) (by
        have := le_trans hsorted.1 hsorted.2
        have : (1 : ℚ) ≤ (sort3 (dist2 x1 x2) (dist2 x2 x3) (dist2 x1 x3)).2.2 /
            (sort3 (dist2 x1 x2) (dist2 x2 x3) (dist2 x1 x3)).2.1 :=
          (one_le_div hs2).2 hsorted.2
        exact_mod_cast le_trans zero_le_one this)]
      have : (1 : ℚ) ≤ (sort3 (dist2 x1 x2) (dist2 x2 x3) (dist2 x1 x3)).2.2 /
          (sort3 (dist2 x1 x2) (dist2 x2 x3) (dist2 x1 x3)).2.1 :=
        (one_le_div hs2).2 hsorted.2
      rw [one_pow]
      exact_mod_cast this
    · unfold invariantFeatures
      dsimp only
      rw [show (1 : ℝ) = 1 ^ 2 by norm_num]
      have hq : (1 : ℚ) ≤ (sort3 (dist2 x1 x2) (dist2 x2 x3) (dist2 x1 x3)).2.1 /
          (sort3 (dist2 x1 x2) (dist2 x2 x3) (dist2 x1 x3)).1 :=
        (one_le_div hs1).2 hsorted.1
      rw [Real.le_sqrt (by norm_num) (by exact_mod_cast le_trans zero_le_one hq)]
      rw [one_pow]
      exact_mod_cast hq

/-- C8: witness on a concrete scalene triangle with pairwise distinct
vertices. -/
theorem C8_witness :
    1 ≤ (invariantFeatures ((0 : ℚ), (0 : ℚ)) (2, 0) (0, 1)).1 ∧
    1 ≤ (invariantFeatures ((0 : ℚ), (0 : ℚ)) (2, 0) (0, 1)).2 :=
  (C8_invariantFeatures_ratios ((0 : ℚ), (0 : ℚ)) (2, 0) (0, 1)
    (by norm_num [Prod.ext_iff]) (by norm_num [Prod.ext_iff]) (by norm_num [Prod.ext_iff])).2

/-- C4: the code violates the no-silent-NaN requirement.  For a candidate
triangle whose three points coincide, all sorted squared sides are zero,
the JavaScript evaluation of `sides[1] / sides[0]` is `0 / 0 = NaN`, and
`invariantFeatures` silently returns a NaN descriptor; `generateInvariants`
neither filters the degenerate triangle nor raises any error — on the
three-coincident-point input it still emits a descriptor entry for it. -/
theorem C4_nan_descriptor :
    invariantFeaturesJS ((0 : ℚ), (0 : ℚ)) (0, 0) (0, 0) = (JSNum.nan, JSNum.nan) ∧
    (generateInvariants [((0 : ℚ), (0 : ℚ)), (0, 0), (0, 0)]).1 ≠ [] := by
  constructor
  · norm_num [invariantFeaturesJS, sort3, dist2, jsDiv, jsSqrt]
  · have hknn : knnQuery [((0 : ℚ), (0 : ℚ)), (0, 0), (0, 0)] (0, 0) 3 = [0, 1, 2] := by
      have hr : List.range [((0 : ℚ), (0 : ℚ)), (0, 0), (0, 0)].length = [0, 1, 2] := rfl
      rw [knnQuery, hr]
      norm_num [dist2, List.insertionSort, List.orderedInsert]
    have hmin : min [((0 : ℚ), (0 : ℚ)), (0, 0), (0, 0)].length NUM_NEAREST_NEIGHBORS = 3 :=
      rfl
    have htr : triples [0, 1, 2] = [(0, 1, 2)] := rfl
    have harr : arrangeTriplet [((0 : ℚ), (0 : ℚ)), (0, 0), (0, 0)] (0, 1, 2) = (1, 2, 0) := by
      norm_num [arrangeTriplet, slots3, dist2, mostCommonVertex, List.insertionSort,
        List.orderedInsert, List.dedup, argmaxCount, List.count_cons, List.count_nil]
    have hanchor : anchorTriangles [((0 : ℚ), (0 : ℚ)), (0, 0), (0, 0)] =
        [(1, 2, 0), (1, 2, 0), (1, 2, 0)] := by
      rw [anchorTriangles]
      simp only [hmin, List.flatMap_cons, List.flatMap_nil, hknn, htr, List.map_cons,
        List.map_nil, harr, List.append_nil, List.nil_append, List.cons_append]
    have hdesc : allDescriptors [((0 : ℚ), (0 : ℚ)), (0, 0), (0, 0)] =
        [(0, 0), (0, 0), (0, 0)] := by
      rw [allDescriptors, hanchor]
      norm_num [invariantFeaturesSq, sort3, dist2]
    rw [generateInvariants, hdesc]
    norm_num [uniqIndices]

theorem searchPositions_eq_none {M T E : Type} [Inhabited M] [LinearOrder E]
    (model : RModel M T E) (data : List M) (thresh : E) (minMatches : ℕ)
    (order : List ℕ) (l : List ℕ)
    (h : ∀ i ∈ l, (supportIdxs model data thresh order i).length < minMatches) :
    searchPositions model data thresh minMatches order l = none := by
  induction l with
  | nil => rfl
  | cons i rest ih =>
    rw [searchPositions, if_neg (not_le.2 (h i (List.mem_cons_self _ _)))]
    exact ih (fun j hj => h j (List.mem_cons_of_mem _ hj))

theorem searchPositions_accept {M T E : Type} [Inhabited M] [LinearOrder E]
    (model : RModel M T E) (data : List M) (thresh : E) (minMatches : ℕ)
    (order : List ℕ) (i : ℕ) (l2 : List ℕ) :
    ∀ l1 : List ℕ,
      (∀ j ∈ l1, (supportIdxs model data thresh order j).length < minMatches) →
      minMatches ≤ (supportIdxs model data thresh order i).length →
      searchPositions model data thresh minMatches order (l1 ++ i :: l2) =
        some (acceptFit model data thresh order i)
  | [], _, hi => by rw [List.nil_append, searchPositions, if_pos hi]
  | j :: l1, h1, hi => by
    rw [List.cons_append, searchPositions,
      if_neg (not_le.2 (h1 j (List.mem_cons_self _ _)))]
    exact searchPositions_accept model data thresh minMatches order i l2 l1
      (fun j' hj' => h1 j' (List.mem_cons_of_mem _ hj')) hi

/-- C7: when no sampled hypothesis ever gathers `minMatches` supporting
inliers, `ransac` raises the exhaustion error; it never returns a
best-effort transform. -/
theorem C7_ransac_exhaustion {M T E : Type} [Inhabited M] [LinearOrder E]
    (data : List M) (model : RModel M T E) (thresh : E) (minMatches : ℕ)
    (order : List ℕ)
    (h : ∀ i < data.length, (supportIdxs model data thresh order i).length < minMatches) :
    ransac data model thresh minMatches order = .error .matchExhaustion := by
  unfold ransac
  rw [searchPositions_eq_none model data thresh minMatches order _
    (fun i hi => h i (List.mem_range.1 hi))]

/-- A degenerate model used only to instantiate the RANSAC theorems on
concrete inputs: it fits the unit transform and reports a unit residual
for every data point. -/
def bigErrModel : RModel Unit Unit ℚ where
  fit := fun _ => ()
  getError := fun l _ => l.map (fun _ => 1)

/-- C7: witness on a one-candidate data set whose errors always exceed the
threshold. -/
theorem C7_witness :
    ransac [()] bigErrModel (0 : ℚ) 1 [0] = .error .matchExhaustion := by
  apply C7_ransac_exhaustion
  intro i hi
  have hz : i = 0 := by simpa using hi
  subst hz
  simp [supportIdxs, restIdxs, sampleIdxs, hypFit, bigErrModel]

/-- C1: amended acceptance characterization of the RANSAC search.  A
hypothesis fitted from the single sampled candidate at shuffled position
`i` is accepted exactly when the count of its supporting inliers *alone*
(the other candidates with error strictly below the tolerance, excluding
the sample itself) reaches `minMatches`; upon acceptance the transform is
refit from the union of the sample and its supporters (`acceptFit`), the
search stops at the first such position, and only the fixed refinement
follows; if no position is accepted the search fails with exhaustion. -/
theorem C1_ransac_acceptance {M T E : Type} [Inhabited M] [LinearOrder E]
    (data : List M) (model : RModel M T E) (thresh : E) (minMatches : ℕ)
    (order : List ℕ) :
    ((∀ i < data.length, (supportIdxs model data thresh order i).length < minMatches) →
      ransac data model thresh minMatches order = .error .matchExhaustion) ∧
    (∀ i < data.length,
      (∀ j < i, (supportIdxs model data thresh order j).length < minMatches) →
      minMatches ≤ (supportIdxs model data thresh order i).length →
      ransac data model thresh minMatches order =
        .ok (refine3 model data thresh (acceptFit model data thresh order i))) := by
  constructor
  · intro h
    unfold ransac
    rw [searchPositions_eq_none model data thresh minMatches order _
      (fun i hi => h i (List.mem_range.1 hi))]
  · intro i hi hbefore haccept
    have hdec : List.range data.length =
        List.range i ++ i :: ((List.range (data.length - i - 1)).map (fun k => i + (k + 1))) := by
      conv_lhs => rw [show data.length = i + (data.length - i) by omega]
      rw [List.range_add]
      congr 1
      rw [show data.length - i = (data.length - i - 1) + 1 by omega, List.range_succ_eq_map]
      simp only [List.map_cons, List.map_map, Function.comp_def, Nat.add_zero,
        Nat.succ_eq_add_one, Nat.add_sub_cancel]
    unfold ransac
    rw [hdec, searchPositions_accept model data thresh minMatches order i _ _
      (fun j hj => hbefore j (List.mem_range.1 hj)) haccept]

/-- A degenerate model reporting a zero residual for every data point,
used only to instantiate the RANSAC theorems on concrete inputs. -/
def zeroErrModel : RModel Unit Unit ℚ where
  fit := fun _ => ()
  getError := fun l _ => l.map (fun _ => 0)

/-- C1: witness of the amended acceptance characterization on a concrete
two-candidate data set accepted at the first shuffled position. -/
theorem C1_witness :
    ransac [(), ()] zeroErrModel (1 : ℚ) 1 [0, 1] =
      .ok (refine3 zeroErrModel [(), ()] 1 (acceptFit zeroErrModel [(), ()] 1 [0, 1] 0)) :=
  (C1_ransac_acceptance [(), ()] zeroErrModel 1 1 [0, 1]).2 0 (by norm_num)
    (by omega)
    (by norm_num [supportIdxs, restIdxs, sampleIdxs, hypFit, zeroErrModel])

/-- C1: counterexample to the claim as stated.  With a single candidate
and `minMatches = 1`, the sample plus its (empty) supporter set has size
1 and so reaches `minMatches`, but the code compares the supporter count
alone (`alsoInliers.length >= minMatches`, here `0 >= 1`) and rejects the
hypothesis, exhausting the search instead of accepting. -/
theorem C1_counterexample :
    1 ≤ 1 + (supportIdxs zeroErrModel [()] (1 : ℚ) [0] 0).length ∧
    ransac [()] zeroErrModel (1 : ℚ) 1 [0] = .error .matchExhaustion := by
  constructor
  · omega
  · rw [ransac]
    have : searchPositions zeroErrModel [()] (1 : ℚ) 1 [0] (List.range [()].length) =
        none := by
      apply searchPositions_eq_none
      intro i hi
      have hz : i = 0 := by simpa using hi
      subst hz
      simp [supportIdxs, restIdxs, sampleIdxs, hypFit, zeroErrModel]
    rw [this]

theorem mem_dedupKeepFirst {α : Type} [DecidableEq α] (l : List α) (x : α) :
    x ∈ dedupKeepFirst l ↔ x ∈ l := by
  have key : ∀ (l : List α) (acc : List α),
      x ∈ l.foldl (fun acc y => if y ∈ acc then acc else acc ++ [y]) acc ↔
        x ∈ acc ∨ x ∈ l := by
    intro l
    induction l with
    | nil => simp
    | cons y ys ih =>
      intro acc
      rw [List.foldl_cons, ih]
      by_cases hy : y ∈ acc
      · simp only [if_pos hy, List.mem_cons]
        constructor
        · rintro (h | h)
          · exact Or.inl h
          · exact Or.inr (Or.inr h)
        · rintro (h | h | h)
          · exact Or.inl h
          · exact Or.inl (h ▸ hy)
          · exact Or.inr h
      · simp only [if_neg hy, List.mem_append, List.mem_singleton, List.mem_cons]
        tauto
  unfold dedupKeepFirst
  rw [key]
  simp

theorem dictInsert_mem {E : Type} [LinearOrder E] (err : ℕ → ℕ → E)
    (acc : List (ℕ × ℕ × E)) (p : ℕ × ℕ) (e : ℕ × ℕ × E)
    (h : e ∈ dictInsert err acc p) : e ∈ acc ∨ e = (p.1, p.2, err p.1 p.2) := by
  unfold dictInsert at h
  cases hf : acc.find? (fun a => a.1 = p.1) with
  | none =>
    rw [hf] at h
    rcases List.mem_append.1 h with h1 | h1
    · exact Or.inl h1
    · exact Or.inr (by simpa using h1)
  | some a =>
    rw [hf] at h
    dsimp only at h
    by_cases hlt : err p.1 p.2 < a.2.2
    · rw [if_pos hlt] at h
      rcases List.mem_map.1 h with ⟨b, hb, hfb⟩
      by_cases hb1 : b.1 = p.1
      · rw [if_pos hb1] at hfb
        exact Or.inr hfb.symm
      · rw [if_neg hb1] at hfb
        exact Or.inl (hfb ▸ hb)
    · rw [if_neg hlt] at h
      exact Or.inl h

theorem dictInsert_nodup {E : Type} [LinearOrder E] (err : ℕ → ℕ → E)
    (acc : List (ℕ × ℕ × E)) (p : ℕ × ℕ)
    (h : (acc.map (fun e => e.1)).Nodup) :
    ((dictInsert err acc p).map (fun e => e.1)).Nodup := by
  unfold dictInsert
  cases hf : acc.find? (fun a => a.1 = p.1) with
  | none =>
    have hnot : p.1 ∉ acc.map (fun e => e.1) := by
      intro hmem
      rcases List.mem_map.1 hmem with ⟨a, ha, hka⟩
      have := List.find?_eq_none.1 hf a ha
      simp [hka] at this
    simp [List.nodup_append, h, hnot]
  | some a =>
    dsimp only
    by_cases hlt : err p.1 p.2 < a.2.2
    · rw [if_pos hlt]
      have : (acc.map (fun e => if e.1 = p.1 then (p.1, p.2, err p.1 p.2) else e)).map
          (fun e => e.1) = acc.map (fun e => e.1) := by
        rw [List.map_map]
        apply List.map_congr_left
        intro b _
        by_cases hb : b.1 = p.1
        · simp [hb]
        · simp [hb]
      rw [this]
      exact h
    · rw [if_neg hlt]
      exact h

theorem dictInsert_err_eq {E : Type} [LinearOrder E] (err : ℕ → ℕ → E)
    (acc : List (ℕ × ℕ × E)) (p : ℕ × ℕ)
    (h : ∀ e ∈ acc, e.2.2 = err e.1 e.2.1) :
    ∀ e ∈ dictInsert err acc p, e.2.2 = err e.1 e.2.1 := by
  intro e he
  rcases dictInsert_mem err acc p e he with h1 | h1
  · exact h e h1
  · rw [h1]

theorem dictInsert_bound {E : Type} [LinearOrder E] (err : ℕ → ℕ → E)
    (acc : List (ℕ × ℕ × E)) (p : ℕ × ℕ) (s : ℕ) (B : E)
    (hpres : ∃ e ∈ acc, e.1 = s)
    (hbound : ∀ e ∈ acc, e.1 = s → e.2.2 ≤ B) :
    (∃ e ∈ dictInsert err acc p, e.1 = s) ∧
    (∀ e ∈ dictInsert err acc p, e.1 = s → e.2.2 ≤ B) := by
  unfold dictInsert
  cases hf : acc.find? (fun a => a.1 = p.1) with
  | none =>
    dsimp only
    constructor
    · rcases hpres with ⟨e, he, hes⟩
      exact ⟨e, List.mem_append.2 (Or.inl he), hes⟩
    · intro e he hes
      rcases List.mem_append.1 he with h1 | h1
      · exact hbound e h1 hes
      · have hep : e = (p.1, p.2, err p.1 p.2) := by simpa using h1
        exfalso
        rcases hpres with ⟨a, ha, has⟩
        have hane : a.1 ≠ p.1 := by simpa using List.find?_eq_none.1 hf a ha
        apply hane
        rw [has, ← hes, hep]
  | some a =>
    dsimp only
    have ha : a ∈ acc := List.mem_of_find?_eq_some hf
    have hap : a.1 = p.1 := by simpa using List.find?_some hf
    by_cases hlt : err p.1 p.2 < a.2.2
    · rw [if_pos hlt]
      constructor
      · rcases hpres with ⟨e, he, hes⟩
        refine ⟨if e.1 = p.1 then (p.1, p.2, err p.1 p.2) else e, List.mem_map.2 ⟨e, he, rfl⟩, ?_⟩
        by_cases hep : e.1 = p.1
        · rw [if_pos hep]
          exact hep ▸ hes
        · rw [if_neg hep]
          exact hes
      · intro e he hes
        rcases List.mem_map.1 he with ⟨b, hb, hfb⟩
        by_cases hbp : b.1 = p.1
        · rw [if_pos hbp] at hfb
          have hs1 : p.1 = s := by rw [← hfb] at hes; exact hes
          have : a.2.2 ≤ B := hbound a ha (hap.trans hs1)
          rw [← hfb]
          exact le_of_lt (lt_of_lt_of_le hlt this)
        · rw [if_neg hbp] at hfb
          exact hbound e (hfb ▸ hb) hes
    · rw [if_neg hlt]
      exact ⟨hpres, hbound⟩

theorem dictInsert_self_bound {E : Type} [LinearOrder E] (err : ℕ → ℕ → E)
    (acc : List (ℕ × ℕ × E)) (p : ℕ × ℕ)
    (hnodup : (acc.map (fun e => e.1)).Nodup) :
    (∃ e ∈ dictInsert err acc p, e.1 = p.1) ∧
    (∀ e ∈ dictInsert err acc p, e.1 = p.1 → e.2.2 ≤ err p.1 p.2) := by
  unfold dictInsert
  cases hf : acc.find? (fun a => a.1 = p.1) with
  | none =>
    dsimp only
    constructor
    · exact ⟨(p.1, p.2, err p.1 p.2), List.mem_append.2 (Or.inr (by simp)), rfl⟩
    · intro e he hes
      rcases List.mem_append.1 he with h1 | h1
      · have := List.find?_eq_none.1 hf e h1
        simp [hes] at this
      · have hep : e = (p.1, p.2, err p.1 p.2) := by simpa using h1
        rw [hep]
  | some a =>
    dsimp only
    have ha : a ∈ acc := List.mem_of_find?_eq_some hf
    have hap : a.1 = p.1 := by simpa using List.find?_some hf
    by_cases hlt : err p.1 p.2 < a.2.2
    · rw [if_pos hlt]
      constructor
      · exact ⟨(p.1, p.2, err p.1 p.2), List.mem_map.2 ⟨a, ha, by rw [if_pos hap]⟩, rfl⟩
      · intro e he hes
        rcases List.mem_map.1 he with ⟨b, hb, hfb⟩
        by_cases hbp : b.1 = p.1
        · rw [if_pos hbp] at hfb
          rw [← hfb]
        · rw [if_neg hbp] at hfb
          exfalso
          exact hbp (by rw [hfb]; exact hes)
    · rw [if_neg hlt]
      constructor
      · exact ⟨a, ha, hap⟩
      · intro e he hes
        have : e = a := List.inj_on_of_nodup_map hnodup he ha (by rw [hes, hap])
        rw [this]
        exact not_lt.1 hlt

theorem dictFold_bound {E : Type} [LinearOrder E] (err : ℕ → ℕ → E) :
    ∀ (todo : List (ℕ × ℕ)) (acc : List (ℕ × ℕ × E)) (s : ℕ) (B : E),
      (∃ e ∈ acc, e.1 = s) → (∀ e ∈ acc, e.1 = s → e.2.2 ≤ B) →
      ∀ e ∈ todo.foldl (dictInsert err) acc, e.1 = s → e.2.2 ≤ B
  | [], acc, s, B, _, hbound => by simpa using hbound
  | p :: rest, acc, s, B, hpres, hbound => by
    rw [List.foldl_cons]
    have h := dictInsert_bound err acc p s B hpres hbound
    exact dictFold_bound err rest (dictInsert err acc p) s B h.1 h.2

theorem dictFold_spec {E : Type} [LinearOrder E] (err : ℕ → ℕ → E) :
    ∀ (todo : List (ℕ × ℕ)) (acc : List (ℕ × ℕ × E)),
      (acc.map (fun e => e.1)).Nodup →
      (∀ e ∈ acc, e.2.2 = err e.1 e.2.1) →
      ((todo.foldl (dictInsert err) acc).map (fun e => e.1)).Nodup ∧
      (∀ e ∈ todo.foldl (dictInsert err) acc,
        e.2.2 = err e.1 e.2.1 ∧ ((e.1, e.2.1) ∈ todo ∨ e ∈ acc)) ∧
      (∀ p ∈ todo, ∀ e ∈ todo.foldl (dictInsert err) acc, e.1 = p.1 → e.2.2 ≤ err p.1 p.2)
  | [], acc, hnodup, herr => ⟨hnodup, fun e he => ⟨herr e he, Or.inr he⟩, by simp⟩
  | p :: rest, acc, hnodup, herr => by
    rw [List.foldl_cons]
    have hnodup' := dictInsert_nodup err acc p hnodup
    have herr' := dictInsert_err_eq err acc p herr
    obtain ⟨ih1, ih2, ih3⟩ := dictFold_spec err rest (dictInsert err acc p) hnodup' herr'
    refine ⟨ih1, ?_, ?_⟩
    · intro e he
      obtain ⟨he1, he2⟩ := ih2 e he
      refine ⟨he1, ?_⟩
      rcases he2 with h | h
      · exact Or.inl (List.mem_cons_of_mem _ h)
      · rcases dictInsert_mem err acc p e h with h1 | h1
        · exact Or.inr h1
        · left
          rw [h1]
          simp
    · intro p' hp' e he hkey
      rcases List.mem_cons.1 hp' with h | h
      · subst h
        have hself := dictInsert_self_bound err acc p' hnodup
        exact dictFold_bound err rest (dictInsert err acc p') p'.1 (err p'.1 p'.2)
          hself.1 hself.2 e he hkey
      · exact ih3 p' h e he hkey

/-- C6: the correspondence resolver returns each source index at most
once, every returned pair comes from the flattened inlier pairs, and
every returned pair minimizes the single-point residual error among all
inlier pairs sharing its source index. -/
theorem C6_resolveInliers {E : Type} [LinearOrder E] (err : ℕ → ℕ → E)
    (pairs : List (ℕ × ℕ)) :
    ((resolveInliers err pairs).map Prod.fst).Nodup ∧
    (∀ q ∈ resolveInliers err pairs, q ∈ pairs) ∧
    (∀ q ∈ resolveInliers err pairs, ∀ p ∈ pairs, p.1 = q.1 →
      err q.1 q.2 ≤ err p.1 p.2) := by
  obtain ⟨h1, h2, h3⟩ := dictFold_spec err (dedupKeepFirst pairs)
    ([] : List (ℕ × ℕ × E)) (by simp) (by simp)
  unfold resolveInliers
  dsimp only
  have hperm : List.Perm
      (List.insertionSort (fun a b : ℕ × ℕ × E => a.1 ≤ b.1)
        ((dedupKeepFirst pairs).foldl (dictInsert err) []))
      ((dedupKeepFirst pairs).foldl (dictInsert err) []) :=
    List.perm_insertionSort _ _
  refine ⟨?_, ?_, ?_⟩
  · rw [List.map_map]
    have : (Prod.fst ∘ fun e : ℕ × ℕ × E => (e.1, e.2.1)) = fun e => e.1 := rfl
    rw [this]
    exact ((hperm.map (fun e => e.1)).nodup_iff).2 h1
  · intro q hq
    rcases List.mem_map.1 hq with ⟨e, he, hqe⟩
    have he' := hperm.mem_iff.1 he
    rcases (h2 e he').2 with h | h
    · rw [← hqe]
      exact (mem_dedupKeepFirst pairs _).1 h
    · simp at h
  · intro q hq p hp hkey
    rcases List.mem_map.1 hq with ⟨e, he, hqe⟩
    have he' := hperm.mem_iff.1 he
    have hpu : p ∈ dedupKeepFirst pairs := (mem_dedupKeepFirst pairs p).2 hp
    have hb := h3 p hpu e he' (by rw [← hqe] at hkey; exact hkey.symm)
    have herr := (h2 e he').1
    rw [← hqe]
    dsimp only
    rw [← herr]
    exact hb

/-- C6: witness exercising the resolver on a concrete conflicting pair
list with natural-number residuals. -/
theorem C6_witness :
    ((resolveInliers (fun s t => s * 10 + t) [(0, 1), (0, 2), (1, 1)]).map Prod.fst).Nodup ∧
    (0 : ℕ) * 10 + 1 ≤ (0 : ℕ) * 10 + 2 :=
  ⟨(C6_resolveInliers (fun s t => s * 10 + t) [(0, 1), (0, 2), (1, 1)]).1,
   (C6_resolveInliers (fun s t => s * 10 + t) [(0, 1), (0, 2), (1, 1)]).2.2
     (0, 1) (by decide) (0, 2) (by decide) rfl⟩

/-- The four corners of the unit square: a source control-point set whose
sixteen candidate triangles are all congruent, so its invariant set has a
single entry. -/
def squareSource : List Pt := [(0, 0), (1, 0), (0, 1), (1, 1)]

/-- A translated and scaled copy of the square, sharing the single
descriptor of `squareSource`. -/
def squareTarget : List Pt := [(10, 10), (12, 10), (10, 12), (12, 12)]


set_option maxHeartbeats 3200000 in
theorem genInv_squareSource : generateInvariants squareSource = ([(2, 1)], [(0, 1, 2)]) := by
  have hsq : squareSource = [(0, 0), (1, 0), (0, 1), (1, 1)] := rfl
  rw [hsq]
  have hr : List.range ([(0, 0), (1, 0), (0, 1), (1, 1)] : List Pt).length = [0, 1, 2, 3] := rfl
  have hk0 : knnQuery [(0, 0), (1, 0), (0, 1), (1, 1)] (0, 0) 4 = [0, 1, 2, 3] := by
    rw [knnQuery, hr]
    norm_num [dist2, List.insertionSort, List.orderedInsert]
  have hk1 : knnQuery [(0, 0), (1, 0), (0, 1), (1, 1)] (1, 0) 4 = [1, 0, 3, 2] := by
    rw [knnQuery, hr]
    norm_num [dist2, List.insertionSort, List.orderedInsert]
  have hk2 : knnQuery [(0, 0), (1, 0), (0, 1), (1, 1)] (0, 1) 4 = [2, 0, 3, 1] := by
    rw [knnQuery, hr]
    norm_num [dist2, List.insertionSort, List.orderedInsert]
  have hk3 : knnQuery [(0, 0), (1, 0), (0, 1), (1, 1)] (1, 1) 4 = [3, 1, 2, 0] := by
    rw [knnQuery, hr]
    norm_num [dist2, List.insertionSort, List.orderedInsert]
  have ht0 : triples [0, 1, 2, 3] = [(0, 1, 2), (0, 1, 3), (0, 2, 3), (1, 2, 3)] := rfl
  have ht1 : triples [1, 0, 3, 2] = [(1, 0, 3), (1, 0, 2), (1, 3, 2), (0, 3, 2)] := rfl
  have ht2 : triples [2, 0, 3, 1] = [(2, 0, 3), (2, 0, 1), (2, 3, 1), (0, 3, 1)] := rfl
  have ht3 : triples [3, 1, 2, 0] = [(3, 1, 2), (3, 1, 0), (3, 2, 0), (1, 2, 0)] := rfl
  have ha0 : arrangeTriplet [(0, 0), (1, 0), (0, 1), (1, 1)] (0, 1, 2) = (0, 2, 1) := by
    norm_num [arrangeTriplet, slots3, dist2, mostCommonVertex, List.insertionSort,
      List.orderedInsert, List.dedup, argmaxCount, List.count_cons, List.count_nil]
  have ha1 : arrangeTriplet [(0, 0), (1, 0), (0, 1), (1, 1)] (0, 1, 3) = (1, 3, 0) := by
    norm_num [arrangeTriplet, slots3, dist2, mostCommonVertex, List.insertionSort,
      List.orderedInsert, List.dedup, argmaxCount, List.count_cons, List.count_nil]
  have ha2 : arrangeTriplet [(0, 0), (1, 0), (0, 1), (1, 1)] (0, 2, 3) = (2, 3, 0) := by
    norm_num [arrangeTriplet, slots3, dist2, mostCommonVertex, List.insertionSort,
      List.orderedInsert, List.dedup, argmaxCount, List.count_cons, List.count_nil]
  have ha3 : arrangeTriplet [(0, 0), (1, 0), (0, 1), (1, 1)] (1, 2, 3) = (3, 1, 2) := by
    norm_num [arrangeTriplet, slots3, dist2, mostCommonVertex, List.insertionSort,
      List.orderedInsert, List.dedup, argmaxCount, List.count_cons, List.count_nil]
  have ha4 : arrangeTriplet [(0, 0), (1, 0), (0, 1), (1, 1)] (1, 0, 3) = (1, 3, 0) := by
    norm_num [arrangeTriplet, slots3, dist2, mostCommonVertex, List.insertionSort,
      List.orderedInsert, List.dedup, argmaxCount, List.count_cons, List.count_nil]
  have ha5 : arrangeTriplet [(0, 0), (1, 0), (0, 1), (1, 1)] (1, 0, 2) = (0, 2, 1) := by
    norm_num [arrangeTriplet, slots3, dist2, mostCommonVertex, List.insertionSort,
      List.orderedInsert, List.dedup, argmaxCount, List.count_cons, List.count_nil]
  have ha6 : arrangeTriplet [(0, 0), (1, 0), (0, 1), (1, 1)] (1, 3, 2) = (3, 2, 1) := by
    norm_num [arrangeTriplet, slots3, dist2, mostCommonVertex, List.insertionSort,
      List.orderedInsert, List.dedup, argmaxCount, List.count_cons, List.count_nil]
  have ha7 : arrangeTriplet [(0, 0), (1, 0), (0, 1), (1, 1)] (0, 3, 2) = (2, 0, 3) := by
    norm_num [arrangeTriplet, slots3, dist2, mostCommonVertex, List.insertionSort,
      List.orderedInsert, List.dedup, argmaxCount, List.count_cons, List.count_nil]
  have ha8 : arrangeTriplet [(0, 0), (1, 0), (0, 1), (1, 1)] (2, 0, 3) = (2, 3, 0) := by
    norm_num [arrangeTriplet, slots3, dist2, mostCommonVertex, List.insertionSort,
      List.orderedInsert, List.dedup, argmaxCount, List.count_cons, List.count_nil]
  have ha9 : arrangeTriplet [(0, 0), (1, 0), (0, 1), (1, 1)] (2, 0, 1) = (0, 1, 2) := by
    norm_num [arrangeTriplet, slots3, dist2, mostCommonVertex, List.insertionSort,
      List.orderedInsert, List.dedup, argmaxCount, List.count_cons, List.count_nil]
  have ha10 : arrangeTriplet [(0, 0), (1, 0), (0, 1), (1, 1)] (2, 3, 1) = (3, 1, 2) := by
    norm_num [arrangeTriplet, slots3, dist2, mostCommonVertex, List.insertionSort,
      List.orderedInsert, List.dedup, argmaxCount, List.count_cons, List.count_nil]
  have ha11 : arrangeTriplet [(0, 0), (1, 0), (0, 1), (1, 1)] (0, 3, 1) = (1, 0, 3) := by
    norm_num [arrangeTriplet, slots3, dist2, mostCommonVertex, List.insertionSort,
      List.orderedInsert, List.dedup, argmaxCount, List.count_cons, List.count_nil]
  have ha12 : arrangeTriplet [(0, 0), (1, 0), (0, 1), (1, 1)] (3, 1, 2) = (3, 2, 1) := by
    norm_num [arrangeTriplet, slots3, dist2, mostCommonVertex, List.insertionSort,
      List.orderedInsert, List.dedup, argmaxCount, List.count_cons, List.count_nil]
  have ha13 : arrangeTriplet [(0, 0), (1, 0), (0, 1), (1, 1)] (3, 1, 0) = (1, 0, 3) := by
    norm_num [arrangeTriplet, slots3, dist2, mostCommonVertex, List.insertionSort,
      List.orderedInsert, List.dedup, argmaxCount, List.count_cons, List.count_nil]
  have ha14 : arrangeTriplet [(0, 0), (1, 0), (0, 1), (1, 1)] (3, 2, 0) = (2, 0, 3) := by
    norm_num [arrangeTriplet, slots3, dist2, mostCommonVertex, List.insertionSort,
      List.orderedInsert, List.dedup, argmaxCount, List.count_cons, List.count_nil]
  have ha15 : arrangeTriplet [(0, 0), (1, 0), (0, 1), (1, 1)] (1, 2, 0) = (0, 1, 2) := by
    norm_num [arrangeTriplet, slots3, dist2, mostCommonVertex, List.insertionSort,
      List.orderedInsert, List.dedup, argmaxCount, List.count_cons, List.count_nil]
  have hmin : min ([(0, 0), (1, 0), (0, 1), (1, 1)] : List Pt).length NUM_NEAREST_NEIGHBORS = 4 := rfl
  have hanchor : anchorTriangles [(0, 0), (1, 0), (0, 1), (1, 1)] = [(0, 2, 1), (1, 3, 0), (2, 3, 0), (3, 1, 2), (1, 3, 0), (0, 2, 1), (3, 2, 1), (2, 0, 3), (2, 3, 0), (0, 1, 2), (3, 1, 2), (1, 0, 3), (3, 2, 1), (1, 0, 3), (2, 0, 3), (0, 1, 2)] := by
    rw [anchorTriangles]
    simp only [hmin, List.flatMap_cons, List.flatMap_nil, hk0, hk1, hk2, hk3,
      ht0, ht1, ht2, ht3, List.map_cons, List.map_nil, ha0, ha1, ha2, ha3, ha4, ha5, ha6, ha7, ha8, ha9, ha10, ha11, ha12, ha13, ha14, ha15,
      List.append_nil, List.nil_append, List.cons_append]
  have hdesc : allDescriptors [(0, 0), (1, 0), (0, 1), (1, 1)] = [(2, 1), (2, 1), (2, 1), (2, 1), (2, 1), (2, 1), (2, 1), (2, 1), (2, 1), (2, 1), (2, 1), (2, 1), (2, 1), (2, 1), (2, 1), (2, 1)] := by
    rw [allDescriptors, hanchor]
    norm_num [invariantFeaturesSq, sort3, dist2]
  rw [generateInvariants, hdesc, hanchor]
  norm_num [uniqIndices]



set_option maxHeartbeats 3200000 in
theorem genInv_squareTarget : generateInvariants squareTarget = ([(2, 1)], [(0, 1, 2)]) := by
  have hsq : squareTarget = [(10, 10), (12, 10), (10, 12), (12, 12)] := rfl
  rw [hsq]
  have hr : List.range ([(10, 10), (12, 10), (10, 12), (12, 12)] : List Pt).length = [0, 1, 2, 3] := rfl
  have hk0 : knnQuery [(10, 10), (12, 10), (10, 12), (12, 12)] (10, 10) 4 = [0, 1, 2, 3] := by
    rw [knnQuery, hr]
    norm_num [dist2, List.insertionSort, List.orderedInsert]
  have hk1 : knnQuery [(10, 10), (12, 10), (10, 12), (12, 12)] (12, 10) 4 = [1, 0, 3, 2] := by
    rw [knnQuery, hr]
    norm_num [dist2, List.insertionSort, List.orderedInsert]
  have hk2 : knnQuery [(10, 10), (12, 10), (10, 12), (12, 12)] (10, 12) 4 = [2, 0, 3, 1] := by
    rw [knnQuery, hr]
    norm_num [dist2, List.insertionSort, List.orderedInsert]
  have hk3 : knnQuery [(10, 10), (12, 10), (10, 12), (12, 12)] (12, 12) 4 = [3, 1, 2, 0] := by
    rw [knnQuery, hr]
    norm_num [dist2, List.insertionSort, List.orderedInsert]
  have ht0 : triples [0, 1, 2, 3] = [(0, 1, 2), (0, 1, 3), (0, 2, 3), (1, 2, 3)] := rfl
  have ht1 : triples [1, 0, 3, 2] = [(1, 0, 3), (1, 0, 2), (1, 3, 2), (0, 3, 2)] := rfl
  have ht2 : triples [2, 0, 3, 1] = [(2, 0, 3), (2, 0, 1), (2, 3, 1), (0, 3, 1)] := rfl
  have ht3 : triples [3, 1, 2, 0] = [(3, 1, 2), (3, 1, 0), (3, 2, 0), (1, 2, 0)] := rfl
  have ha0 : arrangeTriplet [(10, 10), (12, 10), (10, 12), (12, 12)] (0, 1, 2) = (0, 2, 1) := by
    norm_num [arrangeTriplet, slots3, dist2, mostCommonVertex, List.insertionSort,
      List.orderedInsert, List.dedup, argmaxCount, List.count_cons, List.count_nil]
  have ha1 : arrangeTriplet [(10, 10), (12, 10), (10, 12), (12, 12)] (0, 1, 3) = (1, 3, 0) := by
    norm_num [arrangeTriplet, slots3, dist2, mostCommonVertex, List.insertionSort,
      List.orderedInsert, List.dedup, argmaxCount, List.count_cons, List.count_nil]
  have ha2 : arrangeTriplet [(10, 10), (12, 10), (10, 12), (12, 12)] (0, 2, 3) = (2, 3, 0) := by
    norm_num [arrangeTriplet, slots3, dist2, mostCommonVertex, List.insertionSort,
      List.orderedInsert, List.dedup, argmaxCount, List.count_cons, List.count_nil]
  have ha3 : arrangeTriplet [(10, 10), (12, 10), (10, 12), (12, 12)] (1, 2, 3) = (3, 1, 2) := by
    norm_num [arrangeTriplet, slots3, dist2, mostCommonVertex, List.insertionSort,
      List.orderedInsert, List.dedup, argmaxCount, List.count_cons, List.count_nil]
  have ha4 : arrangeTriplet [(10, 10), (12, 10), (10, 12), (12, 12)] (1, 0, 3) = (1, 3, 0) := by
    norm_num [arrangeTriplet, slots3, dist2, mostCommonVertex, List.insertionSort,
      List.orderedInsert, List.dedup, argmaxCount, List.count_cons, List.count_nil]
  have ha5 : arrangeTriplet [(10, 10), (12, 10), (10, 12), (12, 12)] (1, 0, 2) = (0, 2, 1) := by
    norm_num [arrangeTriplet, slots3, dist2, mostCommonVertex, List.insertionSort,
      List.orderedInsert, List.dedup, argmaxCount, List.count_cons, List.count_nil]
  have ha6 : arrangeTriplet [(10, 10), (12, 10), (10, 12), (12, 12)] (1, 3, 2) = (3, 2, 1) := by
    norm_num [arrangeTriplet, slots3, dist2, mostCommonVertex, List.insertionSort,
      List.orderedInsert, List.dedup, argmaxCount, List.count_cons, List.count_nil]
  have ha7 : arrangeTriplet [(10, 10), (12, 10), (10, 12), (12, 12)] (0, 3, 2) = (2, 0, 3) := by
    norm_num [arrangeTriplet, slots3, dist2, mostCommonVertex, List.insertionSort,
      List.orderedInsert, List.dedup, argmaxCount, List.count_cons, List.count_nil]
  have ha8 : arrangeTriplet [(10, 10), (12, 10), (10, 12), (12, 12)] (2, 0, 3) = (2, 3, 0) := by
    norm_num [arrangeTriplet, slots3, dist2, mostCommonVertex, List.insertionSort,
      List.orderedInsert, List.dedup, argmaxCount, List.count_cons, List.count_nil]
  have ha9 : arrangeTriplet [(10, 10), (12, 10), (10, 12), (12, 12)] (2, 0, 1) = (0, 1, 2) := by
    norm_num [arrangeTriplet, slots3, dist2, mostCommonVertex, List.insertionSort,
      List.orderedInsert, List.dedup, argmaxCount, List.count_cons, List.count_nil]
  have ha10 : arrangeTriplet [(10, 10), (12, 10), (10, 12), (12, 12)] (2, 3, 1) = (3, 1, 2) := by
    norm_num [arrangeTriplet, slots3, dist2, mostCommonVertex, List.insertionSort,
      List.orderedInsert, List.dedup, argmaxCount, List.count_cons, List.count_nil]
  have ha11 : arrangeTriplet [(10, 10), (12, 10), (10, 12), (12, 12)] (0, 3, 1) = (1, 0, 3) := by
    norm_num [arrangeTriplet, slots3, dist2, mostCommonVertex, List.insertionSort,
      List.orderedInsert, List.dedup, argmaxCount, List.count_cons, List.count_nil]
  have ha12 : arrangeTriplet [(10, 10), (12, 10), (10, 12), (12, 12)] (3, 1, 2) = (3, 2, 1) := by
    norm_num [arrangeTriplet, slots3, dist2, mostCommonVertex, List.insertionSort,
      List.orderedInsert, List.dedup, argmaxCount, List.count_cons, List.count_nil]
  have ha13 : arrangeTriplet [(10, 10), (12, 10), (10, 12), (12, 12)] (3, 1, 0) = (1, 0, 3) := by
    norm_num [arrangeTriplet, slots3, dist2, mostCommonVertex, List.insertionSort,
      List.orderedInsert, List.dedup, argmaxCount, List.count_cons, List.count_nil]
  have ha14 : arrangeTriplet [(10, 10), (12, 10), (10, 12), (12, 12)] (3, 2, 0) = (2, 0, 3) := by
    norm_num [arrangeTriplet, slots3, dist2, mostCommonVertex, List.insertionSort,
      List.orderedInsert, List.dedup, argmaxCount, List.count_cons, List.count_nil]
  have ha15 : arrangeTriplet [(10, 10), (12, 10), (10, 12), (12, 12)] (1, 2, 0) = (0, 1, 2) := by
    norm_num [arrangeTriplet, slots3, dist2, mostCommonVertex, List.insertionSort,
      List.orderedInsert, List.dedup, argmaxCount, List.count_cons, List.count_nil]
  have hmin : min ([(10, 10), (12, 10), (10, 12), (12, 12)] : List Pt).length NUM_NEAREST_NEIGHBORS = 4 := rfl
  have hanchor : anchorTriangles [(10, 10), (12, 10), (10, 12), (12, 12)] = [(0, 2, 1), (1, 3, 0), (2, 3, 0), (3, 1, 2), (1, 3, 0), (0, 2, 1), (3, 2, 1), (2, 0, 3), (2, 3, 0), (0, 1, 2), (3, 1, 2), (1, 0, 3), (3, 2, 1), (1, 0, 3), (2, 0, 3), (0, 1, 2)] := by
    rw [anchorTriangles]
    simp only [hmin, List.flatMap_cons, List.flatMap_nil, hk0, hk1, hk2, hk3,
      ht0, ht1, ht2, ht3, List.map_cons, List.map_nil, ha0, ha1, ha2, ha3, ha4, ha5, ha6, ha7, ha8, ha9, ha10, ha11, ha12, ha13, ha14, ha15,
      List.append_nil, List.nil_append, List.cons_append]
  have hdesc : allDescriptors [(10, 10), (12, 10), (10, 12), (12, 12)] = [(2, 1), (2, 1), (2, 1), (2, 1), (2, 1), (2, 1), (2, 1), (2, 1), (2, 1), (2, 1), (2, 1), (2, 1), (2, 1), (2, 1), (2, 1), (2, 1)] := by
    rw [allDescriptors, hanchor]
    norm_num [invariantFeaturesSq, sort3, dist2]
  rw [generateInvariants, hdesc, hanchor]
  norm_num [uniqIndices]
/-- A trivial external estimator instance, used only to run the concrete
pipeline: it fits the unit transform and reports zero residuals. -/
noncomputable def unitEstimator : Estimator Unit ℝ where
  fit := fun _ _ => ()
  residual := fun _ _ _ => 0

theorem pipelineMatches_squares :
    pipelineMatches squareSource squareTarget = [[(0, 0), (1, 1), (2, 2)]] := by
  rw [pipelineMatches, genInv_squareSource, genInv_squareTarget, candidateMatches]
  have hr1 : List.range ([(0, 1, 2)] : List (ℕ × ℕ × ℕ)).length = [0] := rfl
  have hr2 : List.range ([((2 : ℚ), (1 : ℚ))] : List (ℚ × ℚ)).length = [0] := rfl
  rw [hr1]
  simp only [List.flatMap_cons, List.flatMap_nil, matchesFor, hr2]
  norm_num [matched, sqrtSumGe, pairUp, List.filter_cons, List.filter_nil]
/-- C2: counterexample to the claim as stated.  For two square point sets
(4 points each) the candidate correspondence list has exactly one entry,
but since neither control set has exactly 3 points the pipeline does not
take the direct-fit shortcut: it runs RANSAC on the single candidate,
which exhausts (no supporters can reach `minMatches = 1`), and
`findTransform` fails with the exhaustion error instead of fitting
directly. -/
theorem C2_counterexample :
    (pipelineMatches squareSource squareTarget).length = 1 ∧
    findTransform unitEstimator [0] squareSource squareTarget 50 =
      .error .matchExhaustion := by
  constructor
  · rw [pipelineMatches_squares]
    rfl
  · have h1 : squareSource.isEmpty = false := rfl
    have h2 : squareTarget.isEmpty = false := rfl
    have h3 : squareSource.take 50 = squareSource := rfl
    have h4 : squareTarget.take 50 = squareTarget := rfl
    have h5 : squareSource.length = 4 := rfl
    have h6 : squareTarget.length = 4 := rfl
    rw [findTransform]
    simp only [h1, h2, h3, h4, h5, h6, pipelineMatches_squares, Bool.false_eq_true,
      if_false, List.length_cons, List.length_nil]
    norm_num [-Prod.mk_zero_zero, -Prod.mk_one_one]
    have hmm : minMatchesFor 1 = 1 := by
      norm_num [minMatchesFor, MIN_MATCHES_FRACTION]
    rw [hmm, ransac]
    have hnone : searchPositions (matchModel unitEstimator squareSource squareTarget)
        [[(0, 0), (1, 1), (2, 2)]] PIXEL_TOL 1 [0]
        (List.range ([[(0, 0), (1, 1), (2, 2)]] : List (List (ℕ × ℕ))).length) = none := by
      rw [show List.range ([[(0, 0), (1, 1), (2, 2)]] : List (List (ℕ × ℕ))).length = [0]
        from rfl, searchPositions]
      rw [if_neg]
      · rfl
      · simp [supportIdxs, restIdxs]
    rw [hnone]
/-- A 3-point scalene control set, the minimal input producing exactly
one candidate correspondence. -/
def triSource : List Pt := [(0, 0), (2, 0), (0, 1)]

/-- A translated copy of `triSource`. -/
def triTarget : List Pt := [(10, 10), (12, 10), (10, 11)]


set_option maxHeartbeats 1600000 in
theorem genInv_triSource : generateInvariants triSource = ([(5/4, 4)], [(0, 1, 2)]) := by
  have hsq : triSource = [(0, 0), (2, 0), (0, 1)] := rfl
  rw [hsq]
  have hr : List.range ([(0, 0), (2, 0), (0, 1)] : List Pt).length = [0, 1, 2] := rfl
  have hk0 : knnQuery [(0, 0), (2, 0), (0, 1)] (0, 0) 3 = [0, 2, 1] := by
    rw [knnQuery, hr]
    norm_num [dist2, List.insertionSort, List.orderedInsert]
  have hk1 : knnQuery [(0, 0), (2, 0), (0, 1)] (2, 0) 3 = [1, 0, 2] := by
    rw [knnQuery, hr]
    norm_num [dist2, List.insertionSort, List.orderedInsert]
  have hk2 : knnQuery [(0, 0), (2, 0), (0, 1)] (0, 1) 3 = [2, 0, 1] := by
    rw [knnQuery, hr]
    norm_num [dist2, List.insertionSort, List.orderedInsert]
  have ht0 : triples [0, 2, 1] = [(0, 2, 1)] := rfl
  have ht1 : triples [1, 0, 2] = [(1, 0, 2)] := rfl
  have ht2 : triples [2, 0, 1] = [(2, 0, 1)] := rfl
  have ha0 : arrangeTriplet [(0, 0), (2, 0), (0, 1)] (0, 2, 1) = (0, 1, 2) := by
    norm_num [arrangeTriplet, slots3, dist2, mostCommonVertex, List.insertionSort,
      List.orderedInsert, List.dedup, argmaxCount, List.count_cons, List.count_nil]
  have ha1 : arrangeTriplet [(0, 0), (2, 0), (0, 1)] (1, 0, 2) = (0, 1, 2) := by
    norm_num [arrangeTriplet, slots3, dist2, mostCommonVertex, List.insertionSort,
      List.orderedInsert, List.dedup, argmaxCount, List.count_cons, List.count_nil]
  have ha2 : arrangeTriplet [(0, 0), (2, 0), (0, 1)] (2, 0, 1) = (0, 1, 2) := by
    norm_num [arrangeTriplet, slots3, dist2, mostCommonVertex, List.insertionSort,
      List.orderedInsert, List.dedup, argmaxCount, List.count_cons, List.count_nil]
  have hmin : min ([(0, 0), (2, 0), (0, 1)] : List Pt).length NUM_NEAREST_NEIGHBORS = 3 := rfl
  have hanchor : anchorTriangles [(0, 0), (2, 0), (0, 1)] = [(0, 1, 2), (0, 1, 2), (0, 1, 2)] := by
    rw [anchorTriangles]
    simp only [hmin, List.flatMap_cons, List.flatMap_nil, hk0, hk1, hk2,
      ht0, ht1, ht2, List.map_cons, List.map_nil, ha0, ha1, ha2,
      List.append_nil, List.nil_append, List.cons_append]
  have hdesc : allDescriptors [(0, 0), (2, 0), (0, 1)] = [(5/4, 4), (5/4, 4), (5/4, 4)] := by
    rw [allDescriptors, hanchor]
    norm_num [invariantFeaturesSq, sort3, dist2]
  rw [generateInvariants, hdesc, hanchor]
  norm_num [uniqIndices]

set_option maxHeartbeats 1600000 in
theorem genInv_triTarget : generateInvariants triTarget = ([(5/4, 4)], [(0, 1, 2)]) := by
  have hsq : triTarget = [(10, 10), (12, 10), (10, 11)] := rfl
  rw [hsq]
  have hr : List.range ([(10, 10), (12, 10), (10, 11)] : List Pt).length = [0, 1, 2] := rfl
  have hk0 : knnQuery [(10, 10), (12, 10), (10, 11)] (10, 10) 3 = [0, 2, 1] := by
    rw [knnQuery, hr]
    norm_num [dist2, List.insertionSort, List.orderedInsert]
  have hk1 : knnQuery [(10, 10), (12, 10), (10, 11)] (12, 10) 3 = [1, 0, 2] := by
    rw [knnQuery, hr]
    norm_num [dist2, List.insertionSort, List.orderedInsert]
  have hk2 : knnQuery [(10, 10), (12, 10), (10, 11)] (10, 11) 3 = [2, 0, 1] := by
    rw [knnQuery, hr]
    norm_num [dist2, List.insertionSort, List.orderedInsert]
  have ht0 : triples [0, 2, 1] = [(0, 2, 1)] := rfl
  have ht1 : triples [1, 0, 2] = [(1, 0, 2)] := rfl
  have ht2 : triples [2, 0, 1] = [(2, 0, 1)] := rfl
  have ha0 : arrangeTriplet [(10, 10), (12, 10), (10, 11)] (0, 2, 1) = (0, 1, 2) := by
    norm_num [arrangeTriplet, slots3, dist2, mostCommonVertex, List.insertionSort,
      List.orderedInsert, List.dedup, argmaxCount, List.count_cons, List.count_nil]
  have ha1 : arrangeTriplet [(10, 10), (12, 10), (10, 11)] (1, 0, 2) = (0, 1, 2) := by
    norm_num [arrangeTriplet, slots3, dist2, mostCommonVertex, List.insertionSort,
      List.orderedInsert, List.dedup, argmaxCount, List.count_cons, List.count_nil]
  have ha2 : arrangeTriplet [(10, 10), (12, 10), (10, 11)] (2, 0, 1) = (0, 1, 2) := by
    norm_num [arrangeTriplet, slots3, dist2, mostCommonVertex, List.insertionSort,
      List.orderedInsert, List.dedup, argmaxCount, List.count_cons, List.count_nil]
  have hmin : min ([(10, 10), (12, 10), (10, 11)] : List Pt).length NUM_NEAREST_NEIGHBORS = 3 := rfl
  have hanchor : anchorTriangles [(10, 10), (12, 10), (10, 11)] = [(0, 1, 2), (0, 1, 2), (0, 1, 2)] := by
    rw [anchorTriangles]
    simp only [hmin, List.flatMap_cons, List.flatMap_nil, hk0, hk1, hk2,
      ht0, ht1, ht2, List.map_cons, List.map_nil, ha0, ha1, ha2,
      List.append_nil, List.nil_append, List.cons_append]
  have hdesc : allDescriptors [(10, 10), (12, 10), (10, 11)] = [(5/4, 4), (5/4, 4), (5/4, 4)] := by
    rw [allDescriptors, hanchor]
    norm_num [invariantFeaturesSq, sort3, dist2]
  rw [generateInvariants, hdesc, hanchor]
  norm_num [uniqIndices]

theorem pipelineMatches_tris :
    pipelineMatches triSource triTarget = [[(0, 0), (1, 1), (2, 2)]] := by
  rw [pipelineMatches, genInv_triSource, genInv_triTarget, candidateMatches]
  have hr1 : List.range ([(0, 1, 2)] : List (ℕ × ℕ × ℕ)).length = [0] := rfl
  have hr2 : List.range ([(((5 : ℚ))/4, (4 : ℚ))] : List (ℚ × ℚ)).length = [0] := rfl
  rw [hr1]
  simp only [List.flatMap_cons, List.flatMap_nil, matchesFor, hr2]
  norm_num [matched, sqrtSumGe, pairUp, List.filter_cons, List.filter_nil]

/-- C2: amended minimal-input shortcut.  When the candidate list has
exactly one entry AND one of the control point sets has exactly 3 points
(the code requires both), `findTransform` fits directly on that single
candidate, declares it inlying, skips RANSAC entirely — the result does
not depend on the injected shuffle order — and does not fail with
exhaustion. -/
theorem C2_findTransform_directFit {T : Type} (est : Estimator T ℝ)
    (order order' : List ℕ) (src tgt : List Pt) (k : ℕ)
    (hs : src ≠ []) (ht : tgt ≠ [])
    (hs3 : ¬ (src.take k).length < 3) (ht3 : ¬ (tgt.take k).length < 3)
    (hcond : (src.take k).length = 3 ∨ (tgt.take k).length = 3)
    (hone : (pipelineMatches (src.take k) (tgt.take k)).length = 1) :
    findTransform est order src tgt k =
      .ok (directFitResult est (src.take k) (tgt.take k)) ∧
    findTransform est order src tgt k = findTransform est order' src tgt k := by
  have key : ∀ ord : List ℕ, findTransform est ord src tgt k =
      .ok (directFitResult est (src.take k) (tgt.take k)) := by
    intro ord
    have hs' : src.isEmpty = false := by simpa using hs
    have ht' : tgt.isEmpty = false := by simpa using ht
    rw [findTransform]
    simp only [hs', ht', Bool.false_eq_true, if_false]
    rw [if_neg hs3, if_neg ht3, if_pos ⟨hcond, hone⟩]
    rw [directFitResult]
  exact ⟨key order, (key order).trans (key order').symm⟩

/-- C2: witness instantiating the amended shortcut theorem on concrete
3-point inputs with a single candidate correspondence. -/
theorem C2_witness :
    findTransform unitEstimator [0] triSource triTarget 50 =
      .ok (directFitResult unitEstimator (triSource.take 50) (triTarget.take 50)) :=
  (C2_findTransform_directFit unitEstimator [0] [1, 0] triSource triTarget 50
    (by simp [triSource]) (by simp [triTarget])
    (by norm_num [triSource]) (by norm_num [triTarget])
    (Or.inl (by norm_num [triSource]))
    (by
      rw [show triSource.take 50 = triSource from rfl,
        show triTarget.take 50 = triTarget from rfl, pipelineMatches_tris]
      rfl)).1
/-- C10: `findTransform` truncates each coordinate-list input to its first
`maxControlPoints` entries before the fewer-than-3 check, and points past
that index never influence the result: two nonempty inputs agreeing on
their first `maxControlPoints` entries produce identical transforms and
correspondence lists, and an input whose truncation has fewer than 3
points fails with the insufficient-points error even when the full list
is longer. -/
theorem C10_findTransform_truncation {T : Type} (est : Estimator T ℝ)
    (order : List ℕ) (k : ℕ) :
    (∀ src src' tgt tgt' : List Pt, src ≠ [] → src' ≠ [] → tgt ≠ [] → tgt' ≠ [] →
      src.take k = src'.take k → tgt.take k = tgt'.take k →
      findTransform est order src tgt k = findTransform est order src' tgt' k) ∧
    (∀ src tgt : List Pt, src ≠ [] → tgt ≠ [] → (src.take k).length < 3 →
      findTransform est order src tgt k = .error .insufficientSource) := by
  constructor
  · intro src src' tgt tgt' hs hs' ht ht' hst htt
    have h1 : src.isEmpty = false := by simpa using hs
    have h2 : src'.isEmpty = false := by simpa using hs'
    have h3 : tgt.isEmpty = false := by simpa using ht
    have h4 : tgt'.isEmpty = false := by simpa using ht'
    rw [findTransform, findTransform]
    simp only [h1, h2, h3, h4, Bool.false_eq_true, if_false, hst, htt]
  · intro src tgt hs ht hlen
    have h1 : src.isEmpty = false := by simpa using hs
    have h2 : tgt.isEmpty = false := by simpa using ht
    rw [findTransform]
    simp only [h1, h2, Bool.false_eq_true, if_false]
    rw [if_pos hlen]

/-- C10: witness on concrete 4-point inputs truncated to their first 3
points: the trailing point does not influence the result, and a
truncation below 3 points fails. -/
theorem C10_witness :
    findTransform unitEstimator [0] [((0 : ℚ), (0 : ℚ)), (2, 0), (0, 1), (5, 5)]
        [((10 : ℚ), (10 : ℚ)), (12, 10), (10, 11), (6, 6)] 3 =
      findTransform unitEstimator [0] [((0 : ℚ), (0 : ℚ)), (2, 0), (0, 1), (7, 7)]
        [((10 : ℚ), (10 : ℚ)), (12, 10), (10, 11), (8, 8)] 3 :=
  (C10_findTransform_truncation unitEstimator [0] 3).1
    [((0 : ℚ), (0 : ℚ)), (2, 0), (0, 1), (5, 5)]
    [((0 : ℚ), (0 : ℚ)), (2, 0), (0, 1), (7, 7)]
    [((10 : ℚ), (10 : ℚ)), (12, 10), (10, 11), (6, 6)]
    [((10 : ℚ), (10 : ℚ)), (12, 10), (10, 11), (8, 8)]
    (by simp) (by simp) (by simp) (by simp) rfl rfl

end Astroalign
